import Mathlib

/-!
# Verification of the menu import/export pipeline

A shallow embedding of the menu-management program (category/item storage,
spreadsheet import, CSV import, and export), together with theorems settling
the specification claims about it.

Conventions of the embedding:
* JavaScript strings are Lean `String`s; string helpers (`trim`, `toLowerCase`,
  `split`, substring containment) are re-implemented over `List Char` so that
  every definition evaluates by kernel reduction.
* JavaScript numbers are `Rat` (prices) or `Int` (integer cells); `parseFloat`
  and `parseInt` return `Option` with `none` standing for `NaN`.  Exponent
  notation is not modelled (no input in this development uses it).
* `undefined` cells are `Option.none`; the JS coercion `String(undefined)`
  yields the literal string "undefined", and `x || d` picks `d` exactly when
  `x` is falsy (absent or the empty string).
* `Date.now()` / `new Date().toISOString()` are modelled by a monotone clock
  `now : Nat` carried in the store state; each asynchronous storage call
  advances it, and the decimal rendering of the clock (`Nat.repr`) stands for
  the timestamp text inside generated ids and ISO strings.
* `Math.random`-based id generation is abstracted by an explicit argument.
-/

namespace MenuSpec

/-! ## JavaScript string and number semantics -/

/-- Whitespace characters recognised by the modelled `trim`. -/
def isWS (c : Char) : Bool :=
  c == ' ' || c == '\t' || c == '\r' || c == '\n'

/-- `String.trim` for JS strings: drop whitespace from both ends. -/
def jsTrim (s : String) : String :=
  String.mk (((s.data.dropWhile isWS).reverse.dropWhile isWS).reverse)

/-- ASCII `toLowerCase`. -/
def lowerChar (c : Char) : Char :=
  if 65 ≤ c.toNat ∧ c.toNat ≤ 90 then Char.ofNat (c.toNat + 32) else c

/-- `String.toLowerCase` (ASCII). -/
def jsToLower (s : String) : String :=
  String.mk (s.data.map lowerChar)

/-- `String.split(sep)` on a single separator character. -/
def splitCharAux (sep : Char) : List Char → List Char → List String
  | [], cur => [String.mk cur.reverse]
  | c :: rest, cur =>
    if c == sep then String.mk cur.reverse :: splitCharAux sep rest []
    else splitCharAux sep rest (c :: cur)

def splitChar (sep : Char) (s : String) : List String :=
  splitCharAux sep s.data []

/-- `replace(/"/g, '')`: remove every double quote. -/
def removeQuotes (s : String) : String :=
  String.mk (s.data.filter (fun c => !(c == '"')))

/-- Substring containment over char lists (JS `String.includes`). -/
def containsSub (hay needle : List Char) : Bool :=
  hay.tails.any (fun t => needle.isPrefixOf t)

/-- JS `hay.includes(needle)`. -/
def strIncludes (hay needle : String) : Bool :=
  containsSub hay.data needle.data

/-- An optional cell is truthy iff present and non-empty. -/
def truthy : Option String → Bool
  | none => false
  | some s => !(s == "")

/-- JS `a || b` on two optional string cells; never returns a falsy `some`. -/
def jsOr (a b : Option String) : Option String :=
  if truthy a then a else if truthy b then b else none

/-- JS `String(cell || d)` for a string default `d`. -/
def jsCell (cell : Option String) (d : String) : String :=
  match cell with
  | none => d
  | some s => if s == "" then d else s

/-- JS `String(cell)`: an absent cell prints as "undefined". -/
def jsStringU : Option String → String
  | none => "undefined"
  | some s => s

def digitVal (c : Char) : Nat := c.toNat - 48

def isDigitChar (c : Char) : Bool := 48 ≤ c.toNat && c.toNat ≤ 57

def digitsToNat : List Char → Nat → Nat
  | [], acc => acc
  | c :: cs, acc => digitsToNat cs (acc * 10 + digitVal c)

/-- JS `parseFloat`: leading whitespace, optional sign, decimal digits with an
optional fractional part; `none` models `NaN`.  Exponents are not modelled.
The decimal value `±int.frac` is the exact fraction
`±(int·10^k + frac) / 10^k`; it is built with `mkRat` because the `Rat`
arithmetic operators are extern-opaque to kernel evaluation. -/
def parseFloat (s : String) : Option Rat :=
  let cs := s.data.dropWhile isWS
  let signAndRest : Bool × List Char :=
    match cs with
    | c :: rest =>
      if c == '-' then (true, rest)
      else if c == '+' then (false, rest) else (false, cs)
    | [] => (false, [])
  let neg := signAndRest.1
  let cs2 := signAndRest.2
  let intPart := cs2.takeWhile isDigitChar
  let cs3 := cs2.dropWhile isDigitChar
  let fracPart : List Char :=
    match cs3 with
    | c :: rest => if c == '.' then rest.takeWhile isDigitChar else []
    | [] => []
  if intPart.isEmpty && fracPart.isEmpty then none
  else
    let num : Int :=
      (digitsToNat intPart 0 * 10 ^ fracPart.length + digitsToNat fracPart 0 : Nat)
    some (mkRat (if neg then -num else num) (10 ^ fracPart.length))

/-- JS `parseInt(s, 10)`: leading whitespace, optional sign, decimal digits;
`none` models `NaN`. -/
def parseInt (s : String) : Option Int :=
  let cs := s.data.dropWhile isWS
  let signAndRest : Int × List Char :=
    match cs with
    | c :: rest =>
      if c == '-' then (-1, rest) else if c == '+' then (1, rest) else (1, cs)
    | [] => (1, [])
  let intPart := signAndRest.2.takeWhile isDigitChar
  if intPart.isEmpty then none
  else some (signAndRest.1 * (digitsToNat intPart 0 : Int))

/-- JS `parseInt(...) || d`: `NaN` and `0` both fall back to the default. -/
def jsOrInt (o : Option Int) (d : Int) : Int :=
  match o with
  | none => d
  | some v => if v = 0 then d else v

/-- JS `parseInt(...) || undefined`: `NaN` and `0` become `undefined`. -/
def jsOrUndef (o : Option Int) : Option Int :=
  match o with
  | none => none
  | some v => if v = 0 then none else some v

/-- JS `parseFloat(...) || d` on rationals. -/
def jsOrRat (o : Option Rat) (d : Rat) : Rat :=
  match o with
  | none => d
  | some v => if v = 0 then d else v

/-- JS `s || undefined` for a string value. -/
def strOrUndef (s : String) : Option String :=
  if s == "" then none else some s

/-! ## Reference decimal digits, for id-injectivity proofs -/

/-- Reference decimal digit list of a natural number (most significant first). -/
def decDigits (n : Nat) : List Char :=
  if _h : n < 10 then [Nat.digitChar n]
  else decDigits (n / 10) ++ [Nat.digitChar (n % 10)]
  termination_by n
  decreasing_by
    exact Nat.div_lt_self (by omega) (by omega)

/-! ## Data model (types.ts)

Enum-typed fields (`currency`, `specialType`, `imageOrientation`) are carried
as their runtime string values: the TypeScript enum types are erased at
runtime and the import code ranges over `Object.values(...)` string lists. -/

structure MenuCategory where
  id : String
  name : String
  description : String
  sortOrder : Nat
  activeFlag : Bool
  tenantId : String
deriving DecidableEq, Repr

structure MenuItem where
  id : String
  name : String
  description : String
  price : Rat
  currency : String
  imageUrl : String
  videoUrl : Option String
  allergens : List String
  categoryId : String
  availabilityFlag : Bool
  tenantId : String
  createdAt : String
  updatedAt : String
  displayName : Option String
  itemCode : Option String
  prepTime : Option Int
  soldOut : Bool
  portion : Option String
  specialType : Option String
  calories : Option Int
  maxOrderQty : Option Int
  bogo : Bool
  complimentary : Option String
  imageOrientation : Option String
  availableTime : Option String
  availableDate : Option String
deriving DecidableEq, Repr

/-- `Omit<MenuCategory, 'id'>`, the payload of `addCategory`. -/
structure MenuCategoryData where
  name : String
  description : String
  sortOrder : Nat
  activeFlag : Bool
  tenantId : String
deriving DecidableEq, Repr

/-- `Omit<MenuItem, 'id' | 'createdAt' | 'updatedAt'>`, the payload of the
item creation calls. -/
structure MenuItemData where
  name : String
  description : String
  price : Rat
  currency : String
  imageUrl : String
  videoUrl : Option String
  allergens : List String
  categoryId : String
  availabilityFlag : Bool
  tenantId : String
  displayName : Option String
  itemCode : Option String
  prepTime : Option Int
  soldOut : Bool
  portion : Option String
  specialType : Option String
  calories : Option Int
  maxOrderQty : Option Int
  bogo : Bool
  complimentary : Option String
  imageOrientation : Option String
  availableTime : Option String
  availableDate : Option String
deriving DecidableEq, Repr

/-- Runtime values of the `Currency` enum. -/
def currencyValues : List String := ["USD", "EUR", "GBP", "JPY"]

/-- The apostrophe character, spelled by code point. -/
def apos : String := String.mk [Char.ofNat 39]

/-- Runtime values of the `SpecialType` enum. -/
def specialTypeValues : List String :=
  ["None", "Vegetarian", "Non-Vegetarian", "Vegan", "Chef" ++ apos ++ "s Special"]

/-- Runtime values of the `ImageOrientation` enum. -/
def imageOrientationValues : List String := ["16:9", "3:4", "1:1"]

/-! ## Storage collaborator (mockApiService.ts)

The two `Map`-backed stores are insertion-ordered entry lists keyed by the
`id` field; `Map.set` replaces in place when the key exists and appends
otherwise, and `Map.delete` removes the (unique) entry with the key. -/

structure ApiState where
  categoryDB : List MenuCategory
  menuItemDB : List MenuItem
  /-- The `Date.now()` clock; advances at every asynchronous storage call. -/
  now : Nat
deriving DecidableEq, Repr

/-- Generated category id `cat-${Date.now()}`. -/
def idCat (n : Nat) : String := "cat-" ++ Nat.repr n

/-- Generated item id `item-${...}`. -/
def idItem (n : Nat) : String := "item-" ++ Nat.repr n

/-- `new Date().toISOString()`, abstracted to the decimal clock reading. -/
def isoOf (n : Nat) : String := Nat.repr n

/-- `categoryDB.set(c.id, c)`. -/
def setCategory (db : List MenuCategory) (c : MenuCategory) : List MenuCategory :=
  if db.any (fun x => x.id == c.id) then
    db.map (fun x => if x.id == c.id then c else x)
  else db ++ [c]

/-- `menuItemDB.set(i.id, i)`. -/
def setItem (db : List MenuItem) (i : MenuItem) : List MenuItem :=
  if db.any (fun x => x.id == i.id) then
    db.map (fun x => if x.id == i.id then i else x)
  else db ++ [i]

/-- `getCategories(tenantId)`: filter by tenant, sort by `sortOrder`. -/
def getCategories (s : ApiState) (tenantId : String) : List MenuCategory :=
  (s.categoryDB.filter (fun c => c.tenantId == tenantId)).mergeSort
    (fun a b => a.sortOrder ≤ b.sortOrder)

/-- `addCategory`: generate the id from the clock, insert, return a copy. -/
def addCategory (s : ApiState) (d : MenuCategoryData) : MenuCategory × ApiState :=
  let newCategory : MenuCategory :=
    { id := idCat s.now, name := d.name, description := d.description,
      sortOrder := d.sortOrder, activeFlag := d.activeFlag, tenantId := d.tenantId }
  (newCategory,
   { s with categoryDB := setCategory s.categoryDB newCategory, now := s.now + 1 })

/-- `updateCategory`: throws "Category not found" when the id is absent. -/
def updateCategory (s : ApiState) (c : MenuCategory) :
    Except String MenuCategory × ApiState :=
  if s.categoryDB.any (fun x => x.id == c.id) then
    (Except.ok c, { s with categoryDB := setCategory s.categoryDB c, now := s.now + 1 })
  else (Except.error "Category not found", s)

/-- `deleteCategory`: check presence, delete the category entry, then collect
and delete every item whose `categoryId` matches (the cascade). -/
def deleteCategory (s : ApiState) (categoryId : String) :
    Except String Unit × ApiState :=
  if s.categoryDB.any (fun x => x.id == categoryId) then
    let categoryDB2 := s.categoryDB.eraseP (fun x => x.id == categoryId)
    let itemsToDelete :=
      (s.menuItemDB.filter (fun item => item.categoryId == categoryId)).map
        (fun item => item.id)
    let menuItemDB2 :=
      itemsToDelete.foldl (fun db i => db.eraseP (fun x => x.id == i)) s.menuItemDB
    (Except.ok (),
     { s with categoryDB := categoryDB2, menuItemDB := menuItemDB2, now := s.now + 1 })
  else (Except.error "Category not found", s)

/-- `getMenuItems(tenantId, categoryId)`. -/
def getMenuItems (s : ApiState) (tenantId categoryId : String) : List MenuItem :=
  s.menuItemDB.filter (fun i => i.tenantId == tenantId && i.categoryId == categoryId)

/-- `getAllMenuItems(tenantId)`. -/
def getAllMenuItems (s : ApiState) (tenantId : String) : List MenuItem :=
  s.menuItemDB.filter (fun i => i.tenantId == tenantId)

/-- Attach generated id and timestamps to an item payload. -/
def mkItem (d : MenuItemData) (id : String) (t : Nat) : MenuItem :=
  { id := id, name := d.name, description := d.description, price := d.price,
    currency := d.currency, imageUrl := d.imageUrl, videoUrl := d.videoUrl,
    allergens := d.allergens, categoryId := d.categoryId,
    availabilityFlag := d.availabilityFlag, tenantId := d.tenantId,
    createdAt := isoOf t, updatedAt := isoOf t,
    displayName := d.displayName, itemCode := d.itemCode, prepTime := d.prepTime,
    soldOut := d.soldOut, portion := d.portion, specialType := d.specialType,
    calories := d.calories, maxOrderQty := d.maxOrderQty, bogo := d.bogo,
    complimentary := d.complimentary, imageOrientation := d.imageOrientation,
    availableTime := d.availableTime, availableDate := d.availableDate }

/-- The reverse projection of `mkItem`: strip id and timestamps. -/
def itemDataOf (i : MenuItem) : MenuItemData :=
  { name := i.name, description := i.description, price := i.price,
    currency := i.currency, imageUrl := i.imageUrl, videoUrl := i.videoUrl,
    allergens := i.allergens, categoryId := i.categoryId,
    availabilityFlag := i.availabilityFlag, tenantId := i.tenantId,
    displayName := i.displayName, itemCode := i.itemCode, prepTime := i.prepTime,
    soldOut := i.soldOut, portion := i.portion, specialType := i.specialType,
    calories := i.calories, maxOrderQty := i.maxOrderQty, bogo := i.bogo,
    complimentary := i.complimentary, imageOrientation := i.imageOrientation,
    availableTime := i.availableTime, availableDate := i.availableDate }

/-- `addMenuItem`: one item, id from the clock. -/
def addMenuItem (s : ApiState) (d : MenuItemData) : MenuItem × ApiState :=
  let newItem := mkItem d (idItem s.now) s.now
  (newItem, { s with menuItemDB := setItem s.menuItemDB newItem, now := s.now + 1 })

/-- The items inserted by one batch call: ids `item-${startId + index}`. -/
def mkBatch (startId t : Nat) : Nat → List MenuItemData → List MenuItem
  | _, [] => []
  | index, d :: rest =>
    mkItem d (idItem (startId + index)) t :: mkBatch startId t (index + 1) rest

/-- `addMenuItemsBatch`: capture `startId = Date.now()`, insert each item with
id `item-${startId + index}`, and return `itemsData.length`. -/
def addMenuItemsBatch (s : ApiState) (itemsData : List MenuItemData) :
    Nat × ApiState :=
  let startId := s.now
  let db := (mkBatch startId s.now 0 itemsData).foldl setItem s.menuItemDB
  (itemsData.length,
   { s with menuItemDB := db, now := s.now + itemsData.length + 1 })

/-- `updateMenuItem`: refresh `updatedAt`, throw when the id is absent. -/
def updateMenuItem (s : ApiState) (item : MenuItem) :
    Except String MenuItem × ApiState :=
  if s.menuItemDB.any (fun x => x.id == item.id) then
    let itemToUpdate := { item with updatedAt := isoOf s.now }
    (Except.ok itemToUpdate,
     { s with menuItemDB := setItem s.menuItemDB itemToUpdate, now := s.now + 1 })
  else (Except.error "Menu item not found", s)

/-- `deleteMenuItem`: `Map.delete` first, then throw if nothing was deleted. -/
def deleteMenuItem (s : ApiState) (itemId : String) :
    Except String Unit × ApiState :=
  let deleted := s.menuItemDB.any (fun x => x.id == itemId)
  let db2 := s.menuItemDB.eraseP (fun x => x.id == itemId)
  if deleted then (Except.ok (), { s with menuItemDB := db2, now := s.now + 1 })
  else (Except.error "Menu item not found", { s with menuItemDB := db2 })

/-! ## Spreadsheet import (App.tsx, handleExcelUpload) -/

structure Row where
  /-- Cell `row['Category Name']`. -/
  categoryName : Option String
  /-- Cell `row['category_name']`. -/
  categoryNameAlt : Option String
  name : Option String
  description : Option String
  price : Option String
  currency : Option String
  imageUrl : Option String
  videoUrl : Option String
  available : Option String
  displayName : Option String
  itemCode : Option String
  prepTime : Option String
  soldOut : Option String
  portion : Option String
  specialType : Option String
  calories : Option String
  maxOrderQty : Option String
  bogo : Option String
  complimentary : Option String
  imageOrientation : Option String
  availableTime : Option String
  availableDate : Option String
deriving DecidableEq, Repr

/-- Loop state of `handleExcelUpload`: the api store plus the local
accumulators declared before the `for` loop. -/
structure ImportAcc where
  api : ApiState
  /-- `categoryNameToIdMap` entries, newest first (`Map.set` shadows). -/
  nameToId : List (String × String)
  newCategoriesCreated : Nat
  newItems : List MenuItemData
  successCount : Nat
  errorCount : Nat
  errors : List String
deriving DecidableEq, Repr

/-- `Map.get` on the name-to-id map. -/
def mapFind (k : String) : List (String × String) → Option String
  | [] => none
  | (k2, v) :: rest => if k == k2 then some v else mapFind k rest

/-- `Map.set`.  Every call site inserts a key that is currently absent, and
the seeding fold inserts left to right, so prepending reproduces the JS
last-write-wins lookup. -/
def mapSet (k v : String) (m : List (String × String)) : List (String × String) :=
  (k, v) :: m

/-- `new Map(categories.map(c => [c.name.toLowerCase(), c.id]))`. -/
def seedMap (categories : List MenuCategory) : List (String × String) :=
  categories.foldl (fun m c => mapSet (jsToLower c.name) c.id m) []

/-- Record one failed row:`errorCount++; errors.push(msg)`. -/
def rowError (acc : ImportAcc) (msg : String) : ImportAcc :=
  { acc with errorCount := acc.errorCount + 1, errors := acc.errors ++ [msg] }

def missingCatMsg (row : Row) : String :=
  "Row with item \"" ++ jsCell row.name "N/A" ++ "\" skipped: Missing Category Name."

def badPriceMsg (row : Row) : String :=
  "Row with item \"" ++ jsCell row.name "N/A" ++ "\" skipped: Invalid or missing Price."

/-- Enum cell handling
`Object.values(E).includes(row[col]) ? row[col] : default`. -/
def pickEnum (vals : List String) (cell : Option String) (d : String) : String :=
  match cell with
  | some v => if vals.contains v then v else d
  | none => d

/-- Boolean cell: `String(row[col]).toLowerCase() === 'true'`. -/
def jsBoolCell (cell : Option String) : Bool :=
  jsToLower (jsStringU cell) == "true"

/-- The `newItem` object literal of `handleExcelUpload` (plus the
`tenantId` the loop adds when pushing it onto `newItems`). -/
def buildItem (row : Row) (categoryId : String) (price : Rat) : MenuItemData :=
  { name := jsCell row.name ""
    description := jsCell row.description ""
    price := price
    currency := pickEnum currencyValues row.currency "USD"
    imageUrl := jsCell row.imageUrl "https://picsum.photos/400/300"
    videoUrl := some (jsCell row.videoUrl "")
    allergens := []
    categoryId := categoryId
    availabilityFlag := jsBoolCell row.available
    displayName := some (jsCell row.displayName "")
    itemCode := some (jsCell row.itemCode "")
    prepTime := some (jsOrInt (parseInt (jsStringU row.prepTime)) 0)
    soldOut := jsBoolCell row.soldOut
    portion := some (jsCell row.portion "")
    specialType := some (pickEnum specialTypeValues row.specialType "None")
    calories := some (jsOrInt (parseInt (jsStringU row.calories)) 0)
    maxOrderQty := some (jsOrInt (parseInt (jsStringU row.maxOrderQty)) 10)
    bogo := jsBoolCell row.bogo
    complimentary := some (jsCell row.complimentary "")
    imageOrientation := some (pickEnum imageOrientationValues row.imageOrientation "1:1")
    availableTime := some (jsCell row.availableTime "")
    availableDate := some (jsCell row.availableDate "")
    tenantId := "tenant-123" }

/-- The payload of the auto-created category of one import row. -/
def catPayload (initialCategoryCount : Nat) (acc : ImportAcc)
    (categoryName : String) : MenuCategoryData :=
  { name := categoryName
    description := "Automatically created from Excel import"
    sortOrder := initialCategoryCount + acc.newCategoriesCreated
    activeFlag := true
    tenantId := "tenant-123" }

/-- Category resolution for one row: look the lowercased name up in the run
map, otherwise auto-create the category through the storage collaborator and
remember it.  (The mocked `addCategory` never rejects, so the catch branch of
the source is unreachable here.) -/
def resolveCategory (initialCategoryCount : Nat) (acc : ImportAcc)
    (categoryName : String) : String × ImportAcc :=
  match mapFind (jsToLower categoryName) acc.nameToId with
  | some categoryId => (categoryId, acc)
  | none =>
    let created := addCategory acc.api (catPayload initialCategoryCount acc categoryName)
    let newCategory := created.1
    (newCategory.id,
     { acc with api := created.2
                nameToId := mapSet (jsToLower newCategory.name) newCategory.id acc.nameToId
                newCategoriesCreated := acc.newCategoriesCreated + 1 })

/-- One iteration of the `for (const row of json)` loop.  The second component
observes the item pushed onto `newItems` by this row, if any. -/
def processRowAux (initialCategoryCount : Nat) (acc : ImportAcc) (row : Row) :
    ImportAcc × Option MenuItemData :=
  match jsOr row.categoryName row.categoryNameAlt with
  | none => (rowError acc (missingCatMsg row), none)
  | some categoryName =>
    let resolved := resolveCategory initialCategoryCount acc categoryName
    let categoryId := resolved.1
    let acc1 := resolved.2
    match parseFloat (jsStringU row.price) with
    | none => (rowError acc1 (badPriceMsg row), none)
    | some price =>
      if price ≤ 0 then (rowError acc1 (badPriceMsg row), none)
      else
        let newItem := buildItem row categoryId price
        if newItem.name == "" then
          (rowError acc1 "A row was skipped: Missing Item Name.", none)
        else
          ({ acc1 with newItems := acc1.newItems ++ [newItem]
                       successCount := acc1.successCount + 1 },
           some newItem)

def processRow (initialCategoryCount : Nat) (acc : ImportAcc) (row : Row) :
    ImportAcc :=
  (processRowAux initialCategoryCount acc row).1

/-- Loop state before the first row: map seeded from the fetched categories,
all counters zero. -/
def initAcc (categories : List MenuCategory) (s : ApiState) : ImportAcc :=
  { api := s, nameToId := seedMap categories, newCategoriesCreated := 0,
    newItems := [], successCount := 0, errorCount := 0, errors := [] }

/-- The whole row loop of `handleExcelUpload`. -/
def importRows (categories : List MenuCategory) (s : ApiState)
    (rows : List Row) : ImportAcc :=
  rows.foldl (processRow categories.length) (initAcc categories s)

/-- Per-row observations of the items pushed onto `newItems`, aligned with
the row list. -/
def runEmitted (n : Nat) : ImportAcc → List Row → List (Option MenuItemData)
  | _, [] => []
  | acc, r :: rs => (processRowAux n acc r).2 :: runEmitted n (processRow n acc r) rs

/-- `handleExcelUpload` after parsing: run the loop, then submit the
accumulated items in a single batch call (skipped when empty). -/
def runImport (categories : List MenuCategory) (s : ApiState)
    (rows : List Row) : ImportAcc × ApiState :=
  let acc := importRows categories s rows
  (acc,
   if acc.newItems.length > 0 then (addMenuItemsBatch acc.api acc.newItems).2
   else acc.api)

/-- The lowercased category key a row resolves with, when its category cell
is truthy. -/
def rowKeyOf (row : Row) : Option String :=
  (jsOr row.categoryName row.categoryNameAlt).map jsToLower

/-! ## exportImportService.ts: CSV parsing and import -/

/-- JS `s || d` for plain strings. -/
def jsOrStr (s d : String) : String := if s == "" then d else s

/-- `parseCSVLine`: quote-aware field splitting.  Quote characters toggle
`inQuotes` and are dropped; a comma splits only outside quotes; every emitted
field is trimmed. -/
def parseCSVChars : List Char → List Char → Bool → List String
  | [], current, _ => [jsTrim (String.mk current)]
  | c :: rest, current, inQuotes =>
    if c == '"' then parseCSVChars rest current (!inQuotes)
    else if c == ',' && !inQuotes then
      jsTrim (String.mk current) :: parseCSVChars rest [] inQuotes
    else parseCSVChars rest (current ++ [c]) inQuotes

def parseCSVLine (line : String) : List String :=
  parseCSVChars line.data [] false

/-- The header row of `importFromCSV`:
`lines[0].split(',').map(h => h.trim().replace(/"/g, ''))` — a naive
split on commas, unlike the quote-aware `parseCSVLine` used for data rows. -/
def headerFields (line : String) : List String :=
  (splitChar ',' line).map (fun h => removeQuotes (jsTrim h))

/-- Column lookup of `createMenuItemFromCSV`: first header whose lowercased
text contains the lowercased requested name; out-of-range row indexing
(`values[index]` = `undefined`) is modelled as the empty string. -/
def getValue (headers values : List String) (header : String) : String :=
  match headers.findIdx? (fun h => strIncludes (jsToLower h) (jsToLower header)) with
  | some index => values.getD index ""
  | none => ""

/-- `createMenuItemFromCSV`.  `nowIso` stands for `new Date().toISOString()`
and `randId` for `this.generateId()` (`Math.random`-based, abstracted). -/
def createMenuItemFromCSV (nowIso randId : String) (values headers : List String) :
    Option MenuItem :=
  let getV := getValue headers values
  let id := jsOrStr (getV "ID") randId
  let name := removeQuotes (getV "Name")
  let description := removeQuotes (getV "Description")
  let price := jsOrRat (parseFloat (getV "Price")) 0
  let currency := jsOrStr (getV "Currency") "USD"
  let categoryId := jsOrStr (getV "Category ID") randId
  if name == "" || description == "" then none
  else
    some
      { id := id, name := name, description := description, price := price,
        currency := currency, imageUrl := "",
        videoUrl := none,
        allergens :=
          if !(getV "Allergens" == "") then
            (splitChar ';' (getV "Allergens")).map jsTrim
          else [],
        categoryId := categoryId,
        availabilityFlag := getV "Availability Flag" == "true",
        tenantId := "tenant-123",
        createdAt := jsOrStr (getV "Created At") nowIso,
        updatedAt := nowIso,
        soldOut := getV "Sold Out" == "true",
        bogo := getV "BOGO" == "true",
        specialType := strOrUndef (getV "Special Type"),
        prepTime := jsOrUndef (parseInt (getV "Prep Time")),
        calories := jsOrUndef (parseInt (getV "Calories")),
        maxOrderQty := jsOrUndef (parseInt (getV "Max Order Qty")),
        complimentary := strOrUndef (getV "Complimentary"),
        imageOrientation := strOrUndef (getV "Image Orientation"),
        displayName := none, itemCode := none, portion := none,
        availableTime := none, availableDate := none }

/-- The result record of the import service. -/
structure ImportResult where
  success : Bool
  message : String
  importedItems : Option (List MenuItem)
  importedCategories : Option (List MenuCategory)
  errors : Option (List String)
deriving DecidableEq, Repr

/-- `importFromCSV`: split into lines, parse headers naively, then parse each
non-blank data row quote-aware and keep the rows `createMenuItemFromCSV`
accepts.  The per-row `catch` can fire only on `undefined.replace` from
out-of-range indexing, which the total embedding never produces, so the
error list stays empty. -/
def importFromCSV (nowIso randId : String) (csv : String) : ImportResult :=
  let lines := splitChar '\n' csv
  let headers := headerFields (lines.headD "")
  let importedItems :=
    (lines.drop 1).foldl
      (fun acc line =>
        if jsTrim line == "" then acc
        else
          match createMenuItemFromCSV nowIso randId (parseCSVLine line) headers with
          | some item => acc ++ [item]
          | none => acc)
      []
  let errors : List String := []
  { success := importedItems.length > 0
    message := "Successfully imported " ++ Nat.repr importedItems.length ++ " items" ++
      (if errors.length > 0 then " with " ++ Nat.repr errors.length ++ " errors" else "")
    importedItems := some importedItems
    importedCategories := none
    errors := if errors.length > 0 then some errors else none }

/-- Observation for the counting claims: the number of non-blank data rows the
`importFromCSV` loop processes. -/
def nonEmptyDataRowCount (csv : String) : Nat :=
  ((splitChar '\n' csv).drop 1).countP (fun l => !(jsTrim l == ""))

/-! ## exportImportService.ts: export -/

inductive ExportFormat
  | csv
  | json
  | xlsx
deriving DecidableEq, Repr

/-- Export options; the unused optional `dateRange` is never read by the
service and is omitted. -/
structure ExportOptions where
  format : ExportFormat
  includeImages : Bool
  includeMetadata : Bool
deriving DecidableEq, Repr

/-- `row.join(sep)` / `Array.join`. -/
def joinSep (sep : String) : List String → String
  | [] => ""
  | [x] => x
  | x :: y :: rest => x ++ sep ++ joinSep sep (y :: rest)

def quoted (s : String) : String := "\"" ++ s ++ "\""

/-- JS number-to-string rendering, abstracted to the `Rat` printer. -/
def numStr (q : Rat) : String := toString q

def intStr (v : Int) : String := toString v

def boolStr (b : Bool) : String := if b then "true" else "false"

/-- `x || ''` for an optional string cell. -/
def optStrCell (o : Option String) : String := o.getD ""

/-- `x || ''` for an optional numeric cell (`0` is falsy). -/
def optIntCell (o : Option Int) : String :=
  match o with
  | none => ""
  | some v => if v = 0 then "" else intStr v

def csvHeaders : List String :=
  ["ID", "Name", "Description", "Price", "Currency", "Category ID", "Category Name",
   "Special Type", "Allergens", "Availability Flag", "Sold Out", "Prep Time (min)",
   "Calories", "Max Order Qty", "BOGO", "Complimentary", "Image Orientation",
   "Created At", "Updated At"]

/-- One CSV data row of `exportToCSV`. -/
def csvRowOf (categories : List MenuCategory) (item : MenuItem) : List String :=
  [item.id, quoted item.name, quoted item.description, numStr item.price,
   item.currency, item.categoryId,
   quoted (optStrCell ((categories.find? (fun c => c.id == item.categoryId)).map
     (fun c => c.name))),
   optStrCell item.specialType,
   joinSep ";" item.allergens,
   boolStr item.availabilityFlag, boolStr item.soldOut,
   optIntCell item.prepTime, optIntCell item.calories, optIntCell item.maxOrderQty,
   boolStr item.bogo, quoted (optStrCell item.complimentary),
   optStrCell item.imageOrientation, item.createdAt, item.updatedAt]

/-- The text written by `exportToCSV`: header row plus one row per item. -/
def exportToCSVContent (menuItems : List MenuItem)
    (categories : List MenuCategory) : String :=
  joinSep "\n" (([csvHeaders] ++ menuItems.map (csvRowOf categories)).map (joinSep ","))

structure ExportMetadata where
  totalItems : Nat
  totalCategories : Nat
  exportOptions : ExportOptions
deriving DecidableEq, Repr

/-- The JSON export envelope (serialization to text is not modelled; the
envelope is the object passed to `JSON.stringify`). -/
structure JsonEnvelope where
  exportDate : String
  version : String
  metadata : Option ExportMetadata
  categories : List MenuCategory
  menuItems : List MenuItem
deriving DecidableEq, Repr

def exportToJSONEnvelope (todayIso : String) (menuItems : List MenuItem)
    (categories : List MenuCategory) (options : ExportOptions) : JsonEnvelope :=
  { exportDate := todayIso
    version := "1.0"
    metadata :=
      if options.includeMetadata then
        some { totalItems := menuItems.length, totalCategories := categories.length,
               exportOptions := options }
      else none
    categories := categories
    menuItems := menuItems }

structure XlsxCatRow where
  id : String
  name : String
  description : String
  sortOrder : Nat
  active : Bool
  tenantId : String
deriving DecidableEq, Repr

def xlsxCatRowOf (c : MenuCategory) : XlsxCatRow :=
  { id := c.id, name := c.name, description := c.description,
    sortOrder := c.sortOrder, active := c.activeFlag, tenantId := c.tenantId }

structure XlsxItemRow where
  id : String
  name : String
  description : String
  price : Rat
  currency : String
  categoryId : String
  categoryName : String
  specialType : String
  allergens : String
  availabilityFlag : Bool
  soldOut : Bool
  prepTime : String
  calories : String
  maxOrderQty : String
  bogo : Bool
  complimentary : String
  imageOrientation : String
  createdAt : String
  updatedAt : String
deriving DecidableEq, Repr

def xlsxItemRowOf (categories : List MenuCategory) (item : MenuItem) : XlsxItemRow :=
  { id := item.id, name := item.name, description := item.description,
    price := item.price, currency := item.currency, categoryId := item.categoryId,
    categoryName := optStrCell ((categories.find? (fun c => c.id == item.categoryId)).map
      (fun c => c.name)),
    specialType := optStrCell item.specialType,
    allergens := joinSep "; " item.allergens,
    availabilityFlag := item.availabilityFlag, soldOut := item.soldOut,
    prepTime := optIntCell item.prepTime, calories := optIntCell item.calories,
    maxOrderQty := optIntCell item.maxOrderQty, bogo := item.bogo,
    complimentary := optStrCell item.complimentary,
    imageOrientation := optStrCell item.imageOrientation,
    createdAt := item.createdAt, updatedAt := item.updatedAt }

structure XlsxSummary where
  totalCategories : Nat
  totalMenuItems : Nat
  availableItems : Nat
  totalMenuValue : Rat
  averagePrice : Rat
  exportDate : String
deriving DecidableEq, Repr

def xlsxSummaryOf (todayIso : String) (menuItems : List MenuItem)
    (categories : List MenuCategory) : XlsxSummary :=
  { totalCategories := categories.length
    totalMenuItems := menuItems.length
    availableItems := (menuItems.filter (fun item => !item.soldOut)).length
    totalMenuValue := menuItems.foldl (fun sum item => sum + item.price) 0
    averagePrice :=
      if menuItems.length > 0 then
        (menuItems.foldl (fun sum item => sum + item.price) 0) / (menuItems.length : Rat)
      else 0
    exportDate := todayIso }

structure XlsxWorkbook where
  categoriesSheet : List XlsxCatRow
  menuItemsSheet : List XlsxItemRow
  summarySheet : XlsxSummary
deriving DecidableEq, Repr

def exportToXLSXWorkbook (todayIso : String) (menuItems : List MenuItem)
    (categories : List MenuCategory) : XlsxWorkbook :=
  { categoriesSheet := categories.map xlsxCatRowOf
    menuItemsSheet := menuItems.map (xlsxItemRowOf categories)
    summarySheet := xlsxSummaryOf todayIso menuItems categories }

/-- The artifact downloaded by one export call. -/
inductive ExportArtifact
  | csvFile (filename content : String)
  | jsonFile (filename : String) (envelope : JsonEnvelope)
  | xlsxFile (filename : String) (workbook : XlsxWorkbook)
deriving DecidableEq, Repr

/-- `exportData`: dispatch on the declared format and produce the downloaded
artifact.  The format enum is exhaustive, so the default `throw` of the
source switch is unreachable; the XLSX-library-availability check is an
environment condition assumed to hold. -/
def exportData (todayIso : String) (menuItems : List MenuItem)
    (categories : List MenuCategory) (options : ExportOptions) : ExportArtifact :=
  match options.format with
  | ExportFormat.csv =>
    ExportArtifact.csvFile ("menu-export-" ++ todayIso ++ ".csv")
      (exportToCSVContent menuItems categories)
  | ExportFormat.json =>
    ExportArtifact.jsonFile ("menu-export-" ++ todayIso ++ ".json")
      (exportToJSONEnvelope todayIso menuItems categories options)
  | ExportFormat.xlsx =>
    ExportArtifact.xlsxFile ("menu-export-" ++ todayIso ++ ".xlsx")
      (exportToXLSXWorkbook todayIso menuItems categories)

/-! ## App.tsx export handlers -/

/-- `handleExport`: export the filtered items when a filter is active,
otherwise the current items.  The store state is threaded to record that the
call performs no write. -/
def handleExport (s : ApiState) (todayIso : String)
    (filteredMenuItems menuItems : List MenuItem) (categories : List MenuCategory)
    (options : ExportOptions) : ExportArtifact × ApiState :=
  (exportData todayIso
    (if filteredMenuItems.length > 0 then filteredMenuItems else menuItems)
    categories options, s)

/-- One row of the `dataToExport` array of `handleExcelExport`. -/
structure ExcelExportRow where
  id : String
  name : String
  displayName : Option String
  description : String
  itemCode : Option String
  categoryName : String
  price : Rat
  currency : String
  available : Bool
  soldOut : Bool
  prepTime : Option Int
  portion : Option String
  calories : Option Int
  specialType : Option String
  maxOrderQty : Option Int
  bogo : Bool
  complimentary : Option String
  allergens : String
  imageUrl : String
  videoUrl : Option String
  imageOrientation : Option String
  availableTime : Option String
  availableDate : Option String
deriving DecidableEq, Repr

def excelRowOf (categories : List MenuCategory) (item : MenuItem) : ExcelExportRow :=
  { id := item.id, name := item.name, displayName := item.displayName,
    description := item.description, itemCode := item.itemCode,
    categoryName :=
      jsCell ((categories.find? (fun c => c.id == item.categoryId)).map
        (fun c => c.name)) "N/A",
    price := item.price, currency := item.currency,
    available := item.availabilityFlag, soldOut := item.soldOut,
    prepTime := item.prepTime, portion := item.portion, calories := item.calories,
    specialType := item.specialType, maxOrderQty := item.maxOrderQty,
    bogo := item.bogo, complimentary := item.complimentary,
    allergens := joinSep ", " item.allergens,
    imageUrl := item.imageUrl, videoUrl := item.videoUrl,
    imageOrientation := item.imageOrientation,
    availableTime := item.availableTime, availableDate := item.availableDate }

/-- `handleExcelExport`: read all items of the tenant; when there are none,
report "No items to export." and stop without building a workbook; otherwise
build and download the sheet.  The second component is the toast message, the
third the (unchanged) store state. -/
def handleExcelExport (categories : List MenuCategory) (s : ApiState) :
    Option (List ExcelExportRow) × String × ApiState :=
  let allItems := getAllMenuItems s "tenant-123"
  if allItems.length == 0 then (none, "No items to export.", s)
  else (some (allItems.map (excelRowOf categories)), "Exported successfully!", s)

/-! ## Concrete fixtures used by witnesses -/

/-- A minimal item payload for concrete stores. -/
def mkData (nm cat : String) (p : Rat) : MenuItemData :=
  { name := nm, description := "", price := p, currency := "USD", imageUrl := "",
    videoUrl := none, allergens := [], categoryId := cat, availabilityFlag := true,
    tenantId := "tenant-123", displayName := none, itemCode := none,
    prepTime := none, soldOut := false, portion := none, specialType := none,
    calories := none, maxOrderQty := none, bogo := false, complimentary := none,
    imageOrientation := none, availableTime := none, availableDate := none }

/-- A minimal category record for concrete stores. -/
def mkCat (i nm : String) (so : Nat) : MenuCategory :=
  { id := i, name := nm, description := "", sortOrder := so, activeFlag := true,
    tenantId := "tenant-123" }

/-- A worksheet row with every cell absent. -/
def emptyRow : Row :=
  { categoryName := none, categoryNameAlt := none, name := none,
    description := none, price := none, currency := none, imageUrl := none,
    videoUrl := none, available := none, displayName := none, itemCode := none,
    prepTime := none, soldOut := none, portion := none, specialType := none,
    calories := none, maxOrderQty := none, bogo := none, complimentary := none,
    imageOrientation := none, availableTime := none, availableDate := none }

/-- A concrete store with two categories and one item in each. -/
def sampleStore : ApiState :=
  { categoryDB := [mkCat "cat-1" "Drinks" 1, mkCat "cat-2" "Food" 2]
    menuItemDB := [mkItem (mkData "Cola" "cat-1" 2) "item-1" 5,
                   mkItem (mkData "Soup" "cat-2" 4) "item-2" 6]
    now := 9 }

/-- An empty store for witnesses on fresh state. -/
def emptyApi : ApiState := { categoryDB := [], menuItemDB := [], now := 0 }

/-- A concrete upload row with a zero price. -/
def rowPriceZero : Row :=
  { emptyRow with
    categoryName := some "Drinks"
    name := some "Cola"
    price := some "0" }

/-! ## Invariants of reachable states and of one import run -/

/-- The clock is ahead of every generated item id in the store — true of every
reachable state, since ids are minted from the strictly increasing clock. -/
def ItemFresh (s : ApiState) : Prop :=
  ∀ it ∈ s.menuItemDB, ∀ m, it.id = idItem m → m < s.now

/-- The clock is ahead of every generated category id in the store — true of
every reachable state. -/
def CatFresh (s : ApiState) : Prop :=
  ∀ c ∈ s.categoryDB, ∀ m, c.id = idCat m → m < s.now

/-- Number of stored categories whose lowercased name is `k`. -/
def keyCount (k : String) (db : List MenuCategory) : Nat :=
  db.countP (fun c => jsToLower c.name == k)

/-- Run invariant tying the name-to-id map to the category store, for one
fixed lowercased name `k`: while `k` is unmapped no stored category carries
it, and once mapped to `cid` exactly one stored category carries it and every
stored category named `k` has id `cid`. -/
def KeyInv (k : String) (acc : ImportAcc) : Prop :=
  CatFresh acc.api
  ∧ (mapFind k acc.nameToId = none → keyCount k acc.api.categoryDB = 0)
  ∧ (∀ cid, mapFind k acc.nameToId = some cid →
      keyCount k acc.api.categoryDB = 1
      ∧ ∀ c ∈ acc.api.categoryDB, jsToLower c.name = k → c.id = cid)

/-- Rows for the C1 witness: same new category name in two spellings. -/
def rowDrinksA : Row :=
  { emptyRow with
    categoryName := some "Drinks"
    name := some "Cola"
    price := some "2" }

def rowDrinksB : Row :=
  { emptyRow with
    categoryName := some "DRINKS"
    name := some "Fanta"
    price := some "3" }

/-! ## Injectivity of the decimal rendering used in generated ids -/

theorem toDigitsCore_eq_decDigits :
    ∀ (fuel n : Nat) (acc : List Char), n < fuel →
      Nat.toDigitsCore 10 fuel n acc = decDigits n ++ acc := by
  intro fuel
  induction fuel with
  | zero => intro n acc h; omega
  | succ fuel ih =>
    intro n acc h
    by_cases h10 : n < 10
    · have hdiv : n / 10 = 0 := Nat.div_eq_of_lt h10
      have hmod : n % 10 = n := Nat.mod_eq_of_lt h10
      simp [Nat.toDigitsCore, hdiv, hmod, decDigits, h10]
    · have hdivpos : n / 10 ≠ 0 := by
        intro hc
        have h1 : 1 ≤ n / 10 := (Nat.one_le_div_iff (by omega)).mpr (by omega)
        omega
      have hlt : n / 10 < fuel := by
        have h1 : n / 10 < n := Nat.div_lt_self (by omega) (by omega)
        omega
      rw [decDigits]
      simp only [h10, dite_false]
      simp [Nat.toDigitsCore, hdivpos, ih (n / 10) _ hlt]

theorem digitChar_val (d : Nat) (h : d < 10) : digitVal (Nat.digitChar d) = d := by
  interval_cases d <;> rfl

theorem digitsToNat_append (l1 l2 : List Char) :
    ∀ acc, digitsToNat (l1 ++ l2) acc = digitsToNat l2 (digitsToNat l1 acc) := by
  induction l1 with
  | nil => intro acc; rfl
  | cons c cs ih => intro acc; simp [digitsToNat, ih]

theorem digitsToNat_decDigits (n : Nat) : ∀ acc, digitsToNat (decDigits n) acc = acc * 10 ^ (decDigits n).length + n := by
  induction n using Nat.strong_induction_on with
  | _ n ih =>
    intro acc
    by_cases h10 : n < 10
    · rw [decDigits]
      simp [h10, digitsToNat, digitChar_val n h10]
    · rw [decDigits]
      simp only [h10, dite_false]
      rw [digitsToNat_append]
      have hrec := ih (n / 10) (Nat.div_lt_self (by omega) (by omega)) acc
      simp [digitsToNat, hrec, digitChar_val (n % 10) (Nat.mod_lt n (by omega)),
        List.length_append, pow_succ]
      ring_nf
      rw [Nat.mul_comm (n / 10) 10]
      omega

theorem decDigits_injective : Function.Injective decDigits := by
  intro a b h
  have ha := digitsToNat_decDigits a 0
  have hb := digitsToNat_decDigits b 0
  rw [h] at ha
  simp at ha hb
  omega

theorem natRepr_injective : Function.Injective Nat.repr := by
  intro a b h
  unfold Nat.repr Nat.toDigits at h
  have h2 : Nat.toDigitsCore 10 (a + 1) a [] = Nat.toDigitsCore 10 (b + 1) b [] := by
    have := congrArg String.data h
    simpa [List.asString] using this
  rw [toDigitsCore_eq_decDigits (a + 1) a [] (by omega),
      toDigitsCore_eq_decDigits (b + 1) b [] (by omega)] at h2
  simp at h2
  exact decDigits_injective h2

/-! ## Generic store lemmas -/

theorem eraseP_key_eq_filter {α : Type} (key : α → String) (a : String)
    (l : List α) (h : (l.map key).Nodup) :
    l.eraseP (fun x => key x == a) = l.filter (fun x => !(key x == a)) := by
  induction l with
  | nil => rfl
  | cons x xs ih =>
    rw [List.map_cons, List.nodup_cons] at h
    rw [List.eraseP_cons, List.filter_cons]
    by_cases hx : key x = a
    · have hb : (key x == a) = true := by simpa using hx
      have hall : ∀ y ∈ xs, ¬ key y = a := by
        intro y hy hya
        have hmem : key y ∈ List.map key xs := List.mem_map_of_mem key hy
        rw [hya, ← hx] at hmem
        exact h.1 hmem
      have hself : xs.filter (fun y => !(key y == a)) = xs := by
        rw [List.filter_eq_self]
        intro y hy
        simp [hall y hy]
      simp [hb, hself]
    · have hb : (key x == a) = false := by simpa using hx
      simp [hb, ih h.2]

theorem foldl_eraseP_eq_filter {α : Type} (key : α → String)
    (ids : List String) : ∀ (l : List α), (l.map key).Nodup →
    ids.foldl (fun db i => db.eraseP (fun x => key x == i)) l
      = l.filter (fun x => !(ids.contains (key x))) := by
  induction ids with
  | nil =>
    intro l _
    simp [List.foldl_nil]
  | cons i is ih =>
    intro l h
    rw [List.foldl_cons, eraseP_key_eq_filter key i l h]
    have hsub : ((l.filter (fun x => !(key x == i))).map key).Nodup := by
      refine h.sublist (List.Sublist.map key ?_)
      exact List.filter_sublist l
    rw [ih _ hsub, List.filter_filter]
    apply List.filter_congr
    intro x _
    by_cases hik : key x = i <;> simp [hik, List.contains_cons]

/-! ## Claim C9: category deletion cascades -/

/-- C9: deleting a present category cascades: the category entry is removed,
every item of that category is removed, and everything else survives
untouched.  The store well-formedness hypotheses say ids are unique keys,
which `Map`-backed stores guarantee. -/
theorem deleteCategory_cascades (s : ApiState) (cid : String)
    (hmem : s.categoryDB.any (fun c => c.id == cid) = true)
    (hcat : (s.categoryDB.map (fun c => c.id)).Nodup)
    (hitem : (s.menuItemDB.map (fun i => i.id)).Nodup) :
    (deleteCategory s cid).1 = Except.ok ()
    ∧ (deleteCategory s cid).2.categoryDB
        = s.categoryDB.filter (fun c => !(c.id == cid))
    ∧ (deleteCategory s cid).2.menuItemDB
        = s.menuItemDB.filter (fun i => !(i.categoryId == cid)) := by
  unfold deleteCategory
  rw [if_pos hmem]
  refine ⟨rfl, ?_, ?_⟩
  · exact eraseP_key_eq_filter (fun c => c.id) cid s.categoryDB hcat
  · show ((s.menuItemDB.filter (fun item => item.categoryId == cid)).map
      (fun item => item.id)).foldl (fun db i => db.eraseP (fun x => x.id == i))
      s.menuItemDB = _
    rw [foldl_eraseP_eq_filter (fun i => i.id) _ s.menuItemDB hitem]
    apply List.filter_congr
    intro x hx
    congr 1
    by_cases hxc : x.categoryId = cid
    · have hmemid : x.id ∈ (s.menuItemDB.filter
          (fun item => item.categoryId == cid)).map (fun item => item.id) :=
        List.mem_map_of_mem _ (List.mem_filter.mpr ⟨hx, by simp [hxc]⟩)
      have hcont : ((s.menuItemDB.filter (fun item => item.categoryId == cid)).map
          (fun item => item.id)).contains x.id = true := by
        rw [List.contains_eq_any_beq]
        exact List.any_eq_true.mpr ⟨x.id, hmemid, by simp⟩
      rw [hcont]
      simp [hxc]
    · have hcont : ((s.menuItemDB.filter (fun item => item.categoryId == cid)).map
          (fun item => item.id)).contains x.id = false := by
        rw [List.contains_eq_any_beq]
        apply List.any_eq_false.mpr
        intro b hb hxb
        rcases List.mem_map.mp hb with ⟨y, hy, hyb⟩
        rcases List.mem_filter.mp hy with ⟨hydb, hycat⟩
        have hxy : x = y := by
          apply List.inj_on_of_nodup_map hitem hx hydb
          rw [hyb]
          simpa using hxb
        apply hxc
        rw [hxy]
        simpa using hycat
      rw [hcont]
      simp [hxc]

/-- Closed witness for C9: deleting `cat-1` from a two-category store with
one item in each category succeeds. -/
theorem deleteCategory_cascades_witness :
    (sampleStore.categoryDB.any (fun c => c.id == "cat-1") = true)
    ∧ (deleteCategory sampleStore "cat-1").1 = Except.ok ()
    ∧ (deleteCategory sampleStore "cat-1").2.menuItemDB
        = sampleStore.menuItemDB.filter (fun i => !(i.categoryId == "cat-1")) := by
  refine ⟨by decide, ?_, ?_⟩
  · exact (deleteCategory_cascades sampleStore "cat-1" (by decide) (by decide)
      (by decide)).1
  · exact (deleteCategory_cascades sampleStore "cat-1" (by decide) (by decide)
      (by decide)).2.2

/-! ## Claim C10: not-found errors leave the stores unchanged -/

/-- C10: each single-entity mutating operation called with an absent id fails
with its "not found" error and leaves the state exactly as it was. -/
theorem notFound_mutations_leave_state_unchanged
    (s : ApiState) (c : MenuCategory) (item : MenuItem) (cid iid : String) :
    (s.categoryDB.any (fun x => x.id == c.id) = false →
      updateCategory s c = (Except.error "Category not found", s))
    ∧ (s.categoryDB.any (fun x => x.id == cid) = false →
      deleteCategory s cid = (Except.error "Category not found", s))
    ∧ (s.menuItemDB.any (fun x => x.id == item.id) = false →
      updateMenuItem s item = (Except.error "Menu item not found", s))
    ∧ (s.menuItemDB.any (fun x => x.id == iid) = false →
      deleteMenuItem s iid = (Except.error "Menu item not found", s)) := by
  refine ⟨?_, ?_, ?_, ?_⟩
  · intro h
    unfold updateCategory
    rw [if_neg (by simp [h])]
  · intro h
    unfold deleteCategory
    rw [if_neg (by simp [h])]
  · intro h
    unfold updateMenuItem
    rw [if_neg (by simp [h])]
  · intro h
    unfold deleteMenuItem
    have herase : s.menuItemDB.eraseP (fun x => x.id == iid) = s.menuItemDB := by
      apply List.eraseP_of_forall_not
      intro a ha
      rw [List.any_eq_false] at h
      exact h a ha
    simp only [h, herase]
    rfl

/-- Closed witness for C10 at the concrete store and absent ids. -/
theorem notFound_mutations_witness :
    (sampleStore.categoryDB.any (fun x => x.id == "cat-404") = false)
    ∧ deleteCategory sampleStore "cat-404"
        = (Except.error "Category not found", sampleStore)
    ∧ deleteMenuItem sampleStore "item-404"
        = (Except.error "Menu item not found", sampleStore) := by
  refine ⟨by decide, ?_, ?_⟩
  · exact (notFound_mutations_leave_state_unchanged sampleStore
      (mkCat "cat-404" "" 0) (mkItem (mkData "" "" 1) "item-404" 0)
      "cat-404" "item-404").2.1 (by decide)
  · exact (notFound_mutations_leave_state_unchanged sampleStore
      (mkCat "cat-404" "" 0) (mkItem (mkData "" "" 1) "item-404" 0)
      "cat-404" "item-404").2.2.2 (by decide)

/-! ## Claim C4: empty export -/

/-- Counterexample for C4: the export service itself has no empty-set check;
invoked with an empty item list it silently produces (and downloads) a
header-only CSV artifact instead of reporting a no-op. -/
theorem exportData_empty_writes_artifact :
    exportData "2025-10-12" [] [mkCat "cat-1" "Drinks" 1]
      { format := ExportFormat.csv, includeImages := false, includeMetadata := true }
      = ExportArtifact.csvFile "menu-export-2025-10-12.csv" (joinSep "," csvHeaders) := by
  rfl

/-- C4 (amended): the spreadsheet-export handler (`handleExcelExport`) does
report the no-op: with no items for the tenant it shows "No items to export.",
builds no workbook, and leaves the state unchanged. -/
theorem handleExcelExport_empty_reports_noop
    (categories : List MenuCategory) (s : ApiState)
    (h : getAllMenuItems s "tenant-123" = []) :
    handleExcelExport categories s = (none, "No items to export.", s) := by
  simp [handleExcelExport, h]

/-- Closed witness for the amended C4 at an empty store. -/
theorem handleExcelExport_empty_witness :
    getAllMenuItems { categoryDB := [], menuItemDB := [], now := 0 } "tenant-123" = []
    ∧ handleExcelExport [] { categoryDB := [], menuItemDB := [], now := 0 }
      = (none, "No items to export.", { categoryDB := [], menuItemDB := [], now := 0 }) :=
  ⟨by decide, handleExcelExport_empty_reports_noop [] _ (by decide)⟩

/-! ## Claim C8: export mutates nothing -/

/-- C8: every export path is a pure read+serialize operation: the store state
threaded through the handlers comes back unchanged in every branch and for
every format, and the serialized JSON envelope and XLSX item sheet are
functions of the input collections (the category and item arrays appear in
the JSON envelope verbatim). -/
theorem export_never_mutates :
    (∀ (s : ApiState) (todayIso : String) (filteredMenuItems menuItems : List MenuItem)
        (categories : List MenuCategory) (options : ExportOptions),
      (handleExport s todayIso filteredMenuItems menuItems categories options).2 = s)
    ∧ (∀ (categories : List MenuCategory) (s : ApiState),
      (handleExcelExport categories s).2.2 = s)
    ∧ (∀ (todayIso : String) (menuItems : List MenuItem)
        (categories : List MenuCategory) (options : ExportOptions),
      (exportToJSONEnvelope todayIso menuItems categories options).categories = categories
      ∧ (exportToJSONEnvelope todayIso menuItems categories options).menuItems = menuItems)
    ∧ (∀ (todayIso : String) (menuItems : List MenuItem)
        (categories : List MenuCategory),
      (exportToXLSXWorkbook todayIso menuItems categories).menuItemsSheet
        = menuItems.map (xlsxItemRowOf categories)) := by
  refine ⟨fun s _ _ _ _ _ => rfl, ?_, fun _ _ _ _ => ⟨rfl, rfl⟩, fun _ _ _ => rfl⟩
  intro categories s
  simp only [handleExcelExport]
  split <;> rfl

/-! ## Claim C5: quote-aware CSV splitting -/

/-- Counterexample for C5: the header row of `importFromCSV` is split naively
on commas (`lines[0].split(',')`), so a quoted header field containing a comma
is torn apart, while the same line fed to the quote-aware `parseCSVLine` used
for data rows stays intact. -/
theorem header_split_not_quote_aware :
    headerFields "\"A,B\",C" = ["A", "B", "C"]
    ∧ parseCSVLine "\"A,B\",C" = ["A,B", "C"] := by
  refine ⟨by decide, by decide⟩

theorem parseCSVChars_append_inQuotes (f : List Char)
    (hq : ∀ c ∈ f, ¬(c = '"')) :
    ∀ (tl cur : List Char),
      parseCSVChars (f ++ tl) cur true = parseCSVChars tl (cur ++ f) true := by
  induction f with
  | nil => intro tl cur; simp
  | cons c cs ih =>
    intro tl cur
    have hc : ¬(c = '"') := hq c (List.mem_cons_self c cs)
    have hq2 : ∀ x ∈ cs, ¬(x = '"') := fun x hx => hq x (List.mem_cons_of_mem c hx)
    have hcb : (c == '"') = false := by simpa using hc
    show parseCSVChars (c :: (cs ++ tl)) cur true = _
    have step : parseCSVChars (c :: (cs ++ tl)) cur true
        = parseCSVChars (cs ++ tl) (cur ++ [c]) true := by
      rw [parseCSVChars, hcb]
      simp
    rw [step, ih hq2 tl (cur ++ [c])]
    simp

theorem parseCSVChars_append_plain (f : List Char)
    (hq : ∀ c ∈ f, ¬(c = '"') ∧ ¬(c = ',')) :
    ∀ (tl cur : List Char),
      parseCSVChars (f ++ tl) cur false = parseCSVChars tl (cur ++ f) false := by
  induction f with
  | nil => intro tl cur; simp
  | cons c cs ih =>
    intro tl cur
    have hc := hq c (List.mem_cons_self c cs)
    have hq2 : ∀ x ∈ cs, ¬(x = '"') ∧ ¬(x = ',') :=
      fun x hx => hq x (List.mem_cons_of_mem c hx)
    have hcq : (c == '"') = false := by simpa using hc.1
    have hcc : (c == ',') = false := by simpa using hc.2
    show parseCSVChars (c :: (cs ++ tl)) cur false = _
    have step : parseCSVChars (c :: (cs ++ tl)) cur false
        = parseCSVChars (cs ++ tl) (cur ++ [c]) false := by
      rw [parseCSVChars, hcq, hcc]
      simp
    rw [step, ih hq2 tl (cur ++ [c])]
    simp

/-- C5 (amended): data rows are parsed quote-aware — a double-quoted field is
a single field value whose inner commas never split, parsing continues
independently after the separating comma, and an unquoted comma-free field is
likewise one field — so a row decomposes field by field with quoted commas
kept inside their field. -/
theorem parseCSVLine_quoted_field :
    (∀ (f rest : String), (∀ c ∈ f.data, ¬(c = '"')) →
      parseCSVLine ("\"" ++ f ++ "\"," ++ rest) = jsTrim f :: parseCSVLine rest)
    ∧ (∀ (p rest : String), (∀ c ∈ p.data, ¬(c = '"') ∧ ¬(c = ',')) →
      parseCSVLine (p ++ "," ++ rest) = jsTrim p :: parseCSVLine rest) := by
  constructor
  · intro f rest hq
    unfold parseCSVLine
    have hdata : ("\"" ++ f ++ "\"," ++ rest).data
        = '"' :: (f.data ++ ('"' :: ',' :: rest.data)) := by
      simp [String.data_append]
    rw [hdata]
    have h1 : parseCSVChars ('"' :: (f.data ++ ('"' :: ',' :: rest.data))) [] false
        = parseCSVChars (f.data ++ ('"' :: ',' :: rest.data)) [] true := by
      rw [parseCSVChars]
      simp
    rw [h1, parseCSVChars_append_inQuotes f.data hq]
    have heta : String.mk f.data = f := rfl
    rw [parseCSVChars]
    simp only [List.nil_append, beq_self_eq_true, if_pos]
    rw [parseCSVChars]
    simp [heta]
  · intro p rest hq
    unfold parseCSVLine
    have hdata : (p ++ "," ++ rest).data = p.data ++ (',' :: rest.data) := by
      simp [String.data_append]
    rw [hdata, parseCSVChars_append_plain p.data hq]
    have heta : String.mk p.data = p := rfl
    rw [parseCSVChars]
    simp [heta]

/-- Closed witness for the amended C5: the quoted field `"a,b"` stays one
field and the plain field `a` before a comma is one field. -/
theorem parseCSVLine_quoted_field_witness :
    (∀ c ∈ ("a,b" : String).data, ¬(c = '"'))
    ∧ parseCSVLine ("\"" ++ "a,b" ++ "\"," ++ "c") = jsTrim "a,b" :: parseCSVLine "c"
    ∧ parseCSVLine ("a" ++ "," ++ "c") = jsTrim "a" :: parseCSVLine "c" :=
  ⟨by decide, parseCSVLine_quoted_field.1 "a,b" "c" (by decide),
    parseCSVLine_quoted_field.2 "a" "c" (by decide)⟩

/-! ## Claim C6: boolean-like cells -/

theorem jsBoolCell_iff (cell : Option String) :
    jsBoolCell cell = true ↔ ∃ v, cell = some v ∧ jsToLower v = "true" := by
  cases cell with
  | none =>
    constructor
    · intro h; exact absurd h (by decide)
    · rintro ⟨v, hv, _⟩; cases hv
  | some v => simp [jsBoolCell, jsStringU]

/-- C6 (amended): in the spreadsheet upload path the boolean-like cells
("Available", "Sold Out", "BOGO") are parsed by a case-insensitive comparison
with "true" — absent cells print as "undefined" and so parse to `false` —
whereas in the CSV import path the comparison is case-sensitive equality with
the exact string "true". -/
theorem boolean_cells_parsing :
    (∀ (row : Row) (categoryId : String) (price : Rat),
      ((buildItem row categoryId price).availabilityFlag = true
        ↔ ∃ v, row.available = some v ∧ jsToLower v = "true")
      ∧ ((buildItem row categoryId price).soldOut = true
        ↔ ∃ v, row.soldOut = some v ∧ jsToLower v = "true")
      ∧ ((buildItem row categoryId price).bogo = true
        ↔ ∃ v, row.bogo = some v ∧ jsToLower v = "true"))
    ∧ (∀ (nowIso randId : String) (values headers : List String) (item : MenuItem),
      createMenuItemFromCSV nowIso randId values headers = some item →
      (item.availabilityFlag = true
        ↔ getValue headers values "Availability Flag" = "true")
      ∧ (item.soldOut = true ↔ getValue headers values "Sold Out" = "true")
      ∧ (item.bogo = true ↔ getValue headers values "BOGO" = "true")) := by
  constructor
  · intro row categoryId price
    exact ⟨jsBoolCell_iff row.available, jsBoolCell_iff row.soldOut,
      jsBoolCell_iff row.bogo⟩
  · intro nowIso randId values headers item h
    simp only [createMenuItemFromCSV] at h
    split at h
    · exact absurd h (by simp)
    · rw [Option.some.injEq] at h
      subst h
      refine ⟨?_, ?_, ?_⟩ <;> simp [beq_iff_eq]

/-- Closed witness for the amended C6 at a concrete CSV row. -/
theorem boolean_cells_parsing_witness :
    ∃ item,
      createMenuItemFromCSV "T0" "rid" ["x", "Taco", "desc", "5", "c1", "true"]
        ["ID", "Name", "Description", "Price", "Category ID", "Availability Flag"]
        = some item
      ∧ (item.availabilityFlag = true
          ↔ getValue ["ID", "Name", "Description", "Price", "Category ID",
              "Availability Flag"] ["x", "Taco", "desc", "5", "c1", "true"]
              "Availability Flag" = "true") := by
  cases hm : createMenuItemFromCSV "T0" "rid" ["x", "Taco", "desc", "5", "c1", "true"]
      ["ID", "Name", "Description", "Price", "Category ID", "Availability Flag"] with
  | none => exact absurd hm (by decide)
  | some item =>
    exact ⟨item, rfl, (boolean_cells_parsing.2 "T0" "rid" _ _ item hm).1⟩

/-- Counterexample for C6: in the CSV import path the cell "True" — accepted
by a case-insensitive comparison — parses to `false`. -/
theorem csv_bool_case_sensitive_counterexample :
    getValue ["ID", "Name", "Description", "Price", "Category ID", "Availability Flag"]
        ["x", "Taco", "desc", "5", "c1", "True"] "Availability Flag" = "True"
    ∧ jsToLower "True" = "true"
    ∧ (createMenuItemFromCSV "T0" "rid" ["x", "Taco", "desc", "5", "c1", "True"]
        ["ID", "Name", "Description", "Price", "Category ID", "Availability Flag"]).map
        (fun i => i.availabilityFlag) = some false := by
  refine ⟨by decide, by decide, by decide⟩

/-! ## Claims C2 and C3: row validation and counting in the upload loop -/

theorem resolveCategory_counters (n : Nat) (acc : ImportAcc) (cName : String) :
    (resolveCategory n acc cName).2.newItems = acc.newItems
    ∧ (resolveCategory n acc cName).2.successCount = acc.successCount
    ∧ (resolveCategory n acc cName).2.errorCount = acc.errorCount
    ∧ (resolveCategory n acc cName).2.errors = acc.errors := by
  cases hm : mapFind (jsToLower cName) acc.nameToId <;>
    simp [resolveCategory, hm]

/-- C2 (amended): in the spreadsheet upload path a row that survives the
category guard with a missing, unparsable, or non-positive price is rejected
with a validation error — the error count and message list grow by one and
nothing enters the batch. -/
theorem excel_import_rejects_nonpositive_price
    (n : Nat) (acc : ImportAcc) (row : Row)
    (hcat : truthy (jsOr row.categoryName row.categoryNameAlt) = true)
    (hbad : parseFloat (jsStringU row.price) = none
      ∨ ∃ p, parseFloat (jsStringU row.price) = some p ∧ p ≤ 0) :
    (processRow n acc row).newItems = acc.newItems
    ∧ (processRow n acc row).successCount = acc.successCount
    ∧ (processRow n acc row).errorCount = acc.errorCount + 1
    ∧ (processRow n acc row).errors = acc.errors ++ [badPriceMsg row] := by
  obtain ⟨cName, hcn⟩ : ∃ c, jsOr row.categoryName row.categoryNameAlt = some c := by
    cases hj : jsOr row.categoryName row.categoryNameAlt with
    | none => rw [hj] at hcat; simp [truthy] at hcat
    | some c => exact ⟨c, rfl⟩
  have hres := resolveCategory_counters n acc cName
  unfold processRow processRowAux
  rw [hcn]
  rcases hbad with hnone | ⟨p, hp, hple⟩
  · rw [hnone]
    simp [rowError, hres.1, hres.2.1, hres.2.2.1, hres.2.2.2]
  · rw [hp]
    simp only [if_pos hple]
    simp [rowError, hres.1, hres.2.1, hres.2.2.1, hres.2.2.2]

/-- Closed witness for C2: a row with category "Drinks" and price "0", and
another check at price "-5", are rejected without entering the batch. -/
theorem excel_import_rejects_nonpositive_price_witness :
    (truthy (jsOr (some "Drinks") none) = true)
    ∧ (∃ p, parseFloat (jsStringU (some "0")) = some p ∧ p ≤ 0)
    ∧ (∃ p, parseFloat (jsStringU (some "-5")) = some p ∧ p ≤ 0)
    ∧ parseFloat (jsStringU (some "abc")) = none
    ∧ parseFloat (jsStringU (none : Option String)) = none
    ∧ ((processRow 0 (initAcc [] emptyApi) rowPriceZero).newItems
        = (initAcc [] emptyApi).newItems)
    ∧ ((processRow 0 (initAcc [] emptyApi) rowPriceZero).errorCount
        = (initAcc [] emptyApi).errorCount + 1) := by
  refine ⟨by decide, ⟨0, by decide, by decide⟩, ⟨-5, by decide, by decide⟩,
    by decide, by decide, ?_, ?_⟩
  · exact (excel_import_rejects_nonpositive_price 0 _ _ (by decide)
      (Or.inr ⟨0, by decide, by decide⟩)).1
  · exact (excel_import_rejects_nonpositive_price 0 _ _ (by decide)
      (Or.inr ⟨0, by decide, by decide⟩)).2.2.1

theorem buildItem_name (row : Row) (categoryId : String) (price : Rat) :
    (buildItem row categoryId price).name = jsCell row.name "" := rfl

/-- Each loop iteration counts its row exactly once: either the success
counter grows by one and the error list is untouched, or the error counter
and the error list each grow by one. -/
theorem processRow_counts (n : Nat) (acc : ImportAcc) (row : Row) :
    ((processRow n acc row).successCount = acc.successCount + 1
      ∧ (processRow n acc row).errorCount = acc.errorCount
      ∧ (processRow n acc row).errors = acc.errors)
    ∨ ((processRow n acc row).successCount = acc.successCount
      ∧ (processRow n acc row).errorCount = acc.errorCount + 1
      ∧ (processRow n acc row).errors.length = acc.errors.length + 1) := by
  unfold processRow processRowAux
  cases hj : jsOr row.categoryName row.categoryNameAlt with
  | none => right; simp [rowError]
  | some cName =>
    have hres := resolveCategory_counters n acc cName
    cases hp : parseFloat (jsStringU row.price) with
    | none =>
      right
      simp [rowError, hres.2.1, hres.2.2.1, hres.2.2.2]
    | some p =>
      by_cases hple : p ≤ 0
      · right
        simp only [if_pos hple]
        simp [rowError, hres.2.1, hres.2.2.1, hres.2.2.2]
      · simp only [if_neg hple]
        by_cases hname : (jsCell row.name "" == "") = true
        · right
          simp only [buildItem_name, hname, if_pos]
          simp [rowError, hres.2.1, hres.2.2.1, hres.2.2.2]
        · left
          simp only [buildItem_name, hname]
          simp [hres.2.1, hres.2.2.1, hres.2.2.2]

theorem foldl_counts (n : Nat) (rows : List Row) : ∀ acc : ImportAcc,
    ((rows.foldl (processRow n) acc).successCount
        + (rows.foldl (processRow n) acc).errorCount
      = acc.successCount + acc.errorCount + rows.length)
    ∧ ((rows.foldl (processRow n) acc).errors.length + acc.errorCount
      = (rows.foldl (processRow n) acc).errorCount + acc.errors.length) := by
  induction rows with
  | nil =>
    intro acc
    refine ⟨by simp, ?_⟩
    simp only [List.foldl_nil]
    omega
  | cons r rs ih =>
    intro acc
    rw [List.foldl_cons]
    have hih1 := (ih (processRow n acc r)).1
    have hih2 := (ih (processRow n acc r)).2
    rcases processRow_counts n acc r with ⟨h1, h2, h3⟩ | ⟨h1, h2, h3⟩
    · have hlen : (processRow n acc r).errors.length = acc.errors.length := by
        rw [h3]
      constructor
      · simp only [List.length_cons]
        omega
      · omega
    · constructor
      · simp only [List.length_cons]
        omega
      · omega

/-- C3 (amended): in the spreadsheet upload loop every row is counted exactly
once — success and error counts sum to the number of rows — and the error
list carries exactly one message per failed row. -/
theorem excel_import_counts_truthful (categories : List MenuCategory)
    (s : ApiState) (rows : List Row) :
    (importRows categories s rows).successCount
        + (importRows categories s rows).errorCount = rows.length
    ∧ (importRows categories s rows).errors.length
        = (importRows categories s rows).errorCount := by
  have h1 := (foldl_counts categories.length rows (initAcc categories s)).1
  have h2 := (foldl_counts categories.length rows (initAcc categories s)).2
  have e1 : (initAcc categories s).successCount = 0 := rfl
  have e2 : (initAcc categories s).errorCount = 0 := rfl
  have e3 : (initAcc categories s).errors.length = 0 := rfl
  simp only [e1, e2, e3] at h1 h2
  unfold importRows
  exact ⟨by omega, by omega⟩

/-- Counterexample for C2: the CSV import path performs no price validation —
a data row with price "-5" is accepted, the item (price `-5`) is included in
the imported batch, and no validation error is reported. -/
theorem csv_import_keeps_negative_price :
    ((importFromCSV "T0" "rid"
        "ID,Name,Description,Price,Category ID\nx,Taco,Tasty,-5,cat9").importedItems).map
        (fun l => l.map (fun i => i.price)) = some [(-5 : Rat)]
    ∧ (importFromCSV "T0" "rid"
        "ID,Name,Description,Price,Category ID\nx,Taco,Tasty,-5,cat9").errors = none
    ∧ (importFromCSV "T0" "rid"
        "ID,Name,Description,Price,Category ID\nx,Taco,Tasty,-5,cat9").success = true := by
  refine ⟨by decide, by decide, by decide⟩

/-- Counterexample for C3: the CSV import path silently drops a processed
non-blank data row whose Name field is empty — it is counted neither as a
success (no imported item) nor as an error (no message). -/
theorem csv_import_drops_row_uncounted :
    nonEmptyDataRowCount "ID,Name,Description,Price,Category ID\nx,,desc,5,c1" = 1
    ∧ (importFromCSV "T0" "rid"
        "ID,Name,Description,Price,Category ID\nx,,desc,5,c1").importedItems = some []
    ∧ (importFromCSV "T0" "rid"
        "ID,Name,Description,Price,Category ID\nx,,desc,5,c1").errors = none := by
  refine ⟨by decide, by decide, by decide⟩

/-! ## Claim C7: single batch creation call -/

theorem idItem_injective : Function.Injective idItem := by
  intro a b h
  unfold idItem at h
  have h2 := congrArg String.data h
  simp only [String.data_append] at h2
  have h3 := List.append_cancel_left h2
  exact natRepr_injective (congrArg String.mk h3)

theorem setItem_append (db : List MenuItem) (i : MenuItem)
    (h : ∀ x ∈ db, ¬(x.id = i.id)) : setItem db i = db ++ [i] := by
  unfold setItem
  rw [if_neg]
  intro hc
  rcases List.any_eq_true.mp hc with ⟨x, hx, hbeq⟩
  exact h x hx (by simpa using hbeq)

theorem itemDataOf_mkItem (d : MenuItemData) (id : String) (t : Nat) :
    itemDataOf (mkItem d id t) = d := rfl

theorem mkBatch_map_data (startId t : Nat) :
    ∀ (l : List MenuItemData) (index : Nat),
      (mkBatch startId t index l).map itemDataOf = l := by
  intro l
  induction l with
  | nil => intro _; rfl
  | cons d rest ih =>
    intro idx
    simp [mkBatch, itemDataOf_mkItem, ih (idx + 1)]

theorem mkBatch_ids (startId t : Nat) :
    ∀ (l : List MenuItemData) (index : Nat) (x : MenuItem),
      x ∈ mkBatch startId t index l →
      ∃ j, index ≤ j ∧ j < index + l.length ∧ x.id = idItem (startId + j) := by
  intro l
  induction l with
  | nil => intro _ x hx; cases hx
  | cons d rest ih =>
    intro idx x hx
    rcases List.mem_cons.mp hx with h | h
    · refine ⟨idx, le_refl _, by simp, by rw [h]; rfl⟩
    · rcases ih (idx + 1) x h with ⟨j, hj1, hj2, hj3⟩
      refine ⟨j, by omega, by simp only [List.length_cons]; omega, hj3⟩

theorem mkBatch_ids_nodup (startId t : Nat) :
    ∀ (l : List MenuItemData) (index : Nat),
      ((mkBatch startId t index l).map (fun x => x.id)).Nodup := by
  intro l
  induction l with
  | nil => intro _; simp [mkBatch]
  | cons d rest ih =>
    intro idx
    simp only [mkBatch, List.map_cons, List.nodup_cons]
    refine ⟨?_, ih (idx + 1)⟩
    intro hmem
    rcases List.mem_map.mp hmem with ⟨y, hy, hyid⟩
    rcases mkBatch_ids startId t rest (idx + 1) y hy with ⟨j, hj1, _, hj3⟩
    have hinj : startId + j = startId + idx :=
      idItem_injective (by rw [← hj3, hyid]; rfl)
    omega

theorem foldl_setItem_append :
    ∀ (batch db : List MenuItem),
      (∀ b ∈ batch, ∀ x ∈ db, ¬(x.id = b.id)) →
      ((batch.map (fun x => x.id)).Nodup) →
      batch.foldl setItem db = db ++ batch := by
  intro batch
  induction batch with
  | nil => intro db _ _; simp
  | cons b bs ih =>
    intro db hfresh hnodup
    rw [List.foldl_cons,
      setItem_append db b (fun x hx => hfresh b (List.mem_cons_self b bs) x hx)]
    rw [List.map_cons, List.nodup_cons] at hnodup
    rw [ih (db ++ [b]) ?_ hnodup.2]
    · simp
    · intro b2 hb2 x hx
      rcases List.mem_append.mp hx with hxdb | hxb
      · exact hfresh b2 (List.mem_cons_of_mem b hb2) x hxdb
      · have hxb2 : x = b := by simpa using hxb
        subst hxb2
        intro heq
        have hmm : b2.id ∈ List.map (fun y => y.id) bs :=
          List.mem_map_of_mem _ hb2
        rw [← heq] at hmm
        exact hnodup.1 hmm

/-- C7: `addMenuItemsBatch` is the single batch creation call of the upload
flow: it returns exactly the number of submitted records, appends one new
item per record (none dropped, none overwritten, pre-existing items intact,
given the clock-freshness invariant of reachable stores), and `runImport`
invokes it exactly once, after the whole row loop, on the accumulated items
(not at all when no row validated). -/
theorem batch_creation_semantics (s : ApiState) (itemsData : List MenuItemData) :
    (addMenuItemsBatch s itemsData).1 = itemsData.length
    ∧ (mkBatch s.now s.now 0 itemsData).map itemDataOf = itemsData
    ∧ (ItemFresh s →
        (addMenuItemsBatch s itemsData).2.menuItemDB
          = s.menuItemDB ++ mkBatch s.now s.now 0 itemsData
        ∧ (addMenuItemsBatch s itemsData).2.menuItemDB.length
          = s.menuItemDB.length + itemsData.length)
    ∧ (∀ (categories : List MenuCategory) (rows : List Row),
        runImport categories s rows
          = (importRows categories s rows,
             if (importRows categories s rows).newItems.length > 0
             then (addMenuItemsBatch (importRows categories s rows).api
                    (importRows categories s rows).newItems).2
             else (importRows categories s rows).api)) := by
  refine ⟨rfl, mkBatch_map_data s.now s.now itemsData 0, ?_, fun _ _ => rfl⟩
  intro hfresh
  have hlen : (mkBatch s.now s.now 0 itemsData).length = itemsData.length := by
    have h := congrArg List.length (mkBatch_map_data s.now s.now itemsData 0)
    simpa using h
  have happend : (mkBatch s.now s.now 0 itemsData).foldl setItem s.menuItemDB
      = s.menuItemDB ++ mkBatch s.now s.now 0 itemsData := by
    apply foldl_setItem_append
    · intro b hb x hx heq
      rcases mkBatch_ids s.now s.now itemsData 0 b hb with ⟨j, _, _, hj3⟩
      have := hfresh x hx (s.now + j) (heq.trans hj3)
      omega
    · exact mkBatch_ids_nodup s.now s.now itemsData 0
  refine ⟨happend, ?_⟩
  show ((mkBatch s.now s.now 0 itemsData).foldl setItem s.menuItemDB).length = _
  rw [happend, List.length_append, hlen]

/-- Closed witness for C7: batching two records into the empty store returns
count 2 and grows the store by exactly two items. -/
theorem batch_creation_semantics_witness :
    ItemFresh emptyApi
    ∧ (addMenuItemsBatch emptyApi
        [mkData "Cola" "cat-1" 2, mkData "Soup" "cat-2" 4]).1 = 2
    ∧ (addMenuItemsBatch emptyApi
        [mkData "Cola" "cat-1" 2, mkData "Soup" "cat-2" 4]).2.menuItemDB.length = 2 := by
  have hfresh : ItemFresh emptyApi := by
    intro it hit m _
    simp [emptyApi] at hit
  refine ⟨hfresh, (batch_creation_semantics emptyApi _).1, ?_⟩
  have h := ((batch_creation_semantics emptyApi
    [mkData "Cola" "cat-1" 2, mkData "Soup" "cat-2" 4]).2.2.1 hfresh).2
  simpa [emptyApi] using h

/-! ## Claim C1: one category per case-insensitive name and run -/

theorem idCat_injective : Function.Injective idCat := by
  intro a b h
  unfold idCat at h
  have h2 := congrArg String.data h
  simp only [String.data_append] at h2
  exact natRepr_injective (congrArg String.mk (List.append_cancel_left h2))

theorem mapFind_mapSet_self (k v : String) (m : List (String × String)) :
    mapFind k (mapSet k v m) = some v := by
  simp [mapFind, mapSet]

theorem mapFind_mapSet_ne (k k2 v : String) (m : List (String × String))
    (h : ¬(k = k2)) : mapFind k (mapSet k2 v m) = mapFind k m := by
  simp [mapFind, mapSet, h]

theorem setCategory_append (db : List MenuCategory) (c : MenuCategory)
    (h : ∀ x ∈ db, ¬(x.id = c.id)) : setCategory db c = db ++ [c] := by
  unfold setCategory
  rw [if_neg]
  intro hc
  rcases List.any_eq_true.mp hc with ⟨x, hx, hbeq⟩
  exact h x hx (by simpa using hbeq)

theorem addCategory_name (s : ApiState) (d : MenuCategoryData) :
    (addCategory s d).1.name = d.name := rfl

theorem addCategory_id (s : ApiState) (d : MenuCategoryData) :
    (addCategory s d).1.id = idCat s.now := rfl

theorem addCategory_fresh (s : ApiState) (d : MenuCategoryData) (h : CatFresh s) :
    (addCategory s d).2.categoryDB = s.categoryDB ++ [(addCategory s d).1]
    ∧ CatFresh (addCategory s d).2 := by
  have hfresh2 : ∀ x ∈ s.categoryDB, ¬(x.id = idCat s.now) := by
    intro x hx heq
    have := h x hx s.now heq
    omega
  have happ : (addCategory s d).2.categoryDB
      = s.categoryDB ++ [(addCategory s d).1] :=
    setCategory_append s.categoryDB _ hfresh2
  refine ⟨happ, ?_⟩
  intro c hc m hm
  rw [happ] at hc
  show m < s.now + 1
  rcases List.mem_append.mp hc with h1 | h1
  · have := h c h1 m hm
    omega
  · have hcnew : c = (addCategory s d).1 := by simpa using h1
    subst hcnew
    rw [addCategory_id] at hm
    have := idCat_injective hm.symm
    omega

/-- The two outcomes of `resolveCategory`, with the resulting accumulator in
each. -/
theorem resolveCategory_cases (n : Nat) (acc : ImportAcc) (cName : String) :
    (∃ cid, mapFind (jsToLower cName) acc.nameToId = some cid
      ∧ resolveCategory n acc cName = (cid, acc))
    ∨ (mapFind (jsToLower cName) acc.nameToId = none
      ∧ resolveCategory n acc cName
          = ((addCategory acc.api (catPayload n acc cName)).1.id,
             { acc with
               api := (addCategory acc.api (catPayload n acc cName)).2
               nameToId := mapSet
                 (jsToLower (addCategory acc.api (catPayload n acc cName)).1.name)
                 (addCategory acc.api (catPayload n acc cName)).1.id acc.nameToId
               newCategoriesCreated := acc.newCategoriesCreated + 1 })) := by
  cases hm : mapFind (jsToLower cName) acc.nameToId with
  | some cid => exact Or.inl ⟨cid, rfl, by simp [resolveCategory, hm]⟩
  | none => exact Or.inr ⟨rfl, by simp [resolveCategory, hm]⟩

theorem resolveCategory_KeyInv (k : String) (n : Nat) (acc : ImportAcc)
    (cName : String) (hinv : KeyInv k acc) :
    KeyInv k (resolveCategory n acc cName).2 := by
  obtain ⟨hcf, hnone, hsome⟩ := hinv
  rcases resolveCategory_cases n acc cName with ⟨cid, hm, heq⟩ | ⟨hm, heq⟩
  · rw [heq]
    exact ⟨hcf, hnone, hsome⟩
  · rw [heq]
    obtain ⟨hdb, hcf2⟩ := addCategory_fresh acc.api (catPayload n acc cName) hcf
    have hnm : (addCategory acc.api (catPayload n acc cName)).1.name = cName :=
      addCategory_name _ _
    refine ⟨hcf2, ?_, ?_⟩
    · intro hfind
      by_cases hkk : k = jsToLower (addCategory acc.api (catPayload n acc cName)).1.name
      · rw [hkk, mapFind_mapSet_self] at hfind
        cases hfind
      · rw [mapFind_mapSet_ne _ _ _ _ hkk] at hfind
        have h0 := hnone hfind
        show keyCount k (addCategory acc.api (catPayload n acc cName)).2.categoryDB = 0
        rw [hdb]
        unfold keyCount at h0 ⊢
        rw [List.countP_append, h0]
        have hne : (jsToLower (addCategory acc.api (catPayload n acc cName)).1.name == k)
            = false := by
          simp only [beq_eq_false_iff_ne, ne_eq]
          intro hh
          exact hkk hh.symm
        simp [List.countP_cons, hne]
    · intro cid hfind
      by_cases hkk : k = jsToLower (addCategory acc.api (catPayload n acc cName)).1.name
      · rw [hkk, mapFind_mapSet_self] at hfind
        have hcid : (addCategory acc.api (catPayload n acc cName)).1.id = cid := by
          injection hfind
        have hmapnone : mapFind k acc.nameToId = none := by
          rw [hkk, hnm]
          exact hm
        have h0 := hnone hmapnone
        have hyes : (jsToLower (addCategory acc.api (catPayload n acc cName)).1.name == k)
            = true := by
          simp [hkk]
        constructor
        · show keyCount k (addCategory acc.api (catPayload n acc cName)).2.categoryDB = 1
          rw [hdb]
          unfold keyCount at h0 ⊢
          rw [List.countP_append, h0]
          simp [List.countP_cons, hyes]
        · intro c hc hck
          show c.id = cid
          rw [hdb] at hc
          rcases List.mem_append.mp hc with h1 | h1
          · exfalso
            unfold keyCount at h0
            have := List.countP_eq_zero.mp h0 c h1
            simp [hck] at this
          · have hcnew : c = (addCategory acc.api (catPayload n acc cName)).1 := by
              simpa using h1
            rw [hcnew, hcid]
      · rw [mapFind_mapSet_ne _ _ _ _ hkk] at hfind
        obtain ⟨hcount, hids⟩ := hsome cid hfind
        have hne : (jsToLower (addCategory acc.api (catPayload n acc cName)).1.name == k)
            = false := by
          simp only [beq_eq_false_iff_ne, ne_eq]
          intro hh
          exact hkk hh.symm
        constructor
        · show keyCount k (addCategory acc.api (catPayload n acc cName)).2.categoryDB = 1
          rw [hdb]
          unfold keyCount at hcount ⊢
          rw [List.countP_append, hcount]
          simp [List.countP_cons, hne]
        · intro c hc hck
          rw [hdb] at hc
          rcases List.mem_append.mp hc with h1 | h1
          · exact hids c h1 hck
          · exfalso
            have hcnew : c = (addCategory acc.api (catPayload n acc cName)).1 := by
              simpa using h1
            apply hkk
            rw [← hck, hcnew]

theorem resolveCategory_mono (k v : String) (n : Nat) (acc : ImportAcc)
    (cName : String) (h : mapFind k acc.nameToId = some v) :
    mapFind k (resolveCategory n acc cName).2.nameToId = some v := by
  rcases resolveCategory_cases n acc cName with ⟨cid, hm, heq⟩ | ⟨hm, heq⟩
  · rw [heq]
    exact h
  · rw [heq]
    by_cases hkk : k = jsToLower (addCategory acc.api (catPayload n acc cName)).1.name
    · exfalso
      have hkk2 : k = jsToLower cName := by rw [hkk, addCategory_name]; rfl
      rw [hkk2, hm] at h
      cases h
    · rw [mapFind_mapSet_ne _ _ _ _ hkk]
      exact h

theorem resolveCategory_binds (k : String) (n : Nat) (acc : ImportAcc)
    (cName : String) (hk : jsToLower cName = k) :
    mapFind k (resolveCategory n acc cName).2.nameToId
      = some (resolveCategory n acc cName).1 := by
  rcases resolveCategory_cases n acc cName with ⟨cid, hm, heq⟩ | ⟨hm, heq⟩
  · rw [heq, ← hk]
    exact hm
  · rw [heq]
    show mapFind k (mapSet (jsToLower (addCategory acc.api (catPayload n acc cName)).1.name)
      (addCategory acc.api (catPayload n acc cName)).1.id acc.nameToId) = _
    rw [addCategory_name]
    show mapFind k (mapSet (jsToLower cName) _ _) = _
    rw [hk, mapFind_mapSet_self]

/-- `KeyInv` reads only the store and the run map. -/
theorem KeyInv_of_eq {k : String} {a b : ImportAcc} (ha : b.api = a.api)
    (hm : b.nameToId = a.nameToId) (h : KeyInv k a) : KeyInv k b := by
  unfold KeyInv at h ⊢
  rw [ha, hm]
  exact h

/-- Each loop iteration either leaves store and map alone (missing category
name) or passes them through exactly one `resolveCategory` call. -/
theorem processRow_shape (n : Nat) (acc : ImportAcc) (row : Row) :
    (jsOr row.categoryName row.categoryNameAlt = none
      ∧ (processRow n acc row).api = acc.api
      ∧ (processRow n acc row).nameToId = acc.nameToId)
    ∨ (∃ cName, jsOr row.categoryName row.categoryNameAlt = some cName
        ∧ (processRow n acc row).api = (resolveCategory n acc cName).2.api
        ∧ (processRow n acc row).nameToId = (resolveCategory n acc cName).2.nameToId) := by
  unfold processRow processRowAux
  cases hj : jsOr row.categoryName row.categoryNameAlt with
  | none => exact Or.inl ⟨rfl, by simp [rowError], by simp [rowError]⟩
  | some cName =>
    refine Or.inr ⟨cName, rfl, ?_⟩
    cases hp : parseFloat (jsStringU row.price) with
    | none => exact ⟨by simp [rowError], by simp [rowError]⟩
    | some p =>
      by_cases hple : p ≤ 0
      · simp only [if_pos hple]
        exact ⟨by simp [rowError], by simp [rowError]⟩
      · simp only [if_neg hple]
        by_cases hname : ((buildItem row (resolveCategory n acc cName).1 p).name == "") = true
        · simp only [hname, if_pos]
          exact ⟨by simp [rowError], by simp [rowError]⟩
        · simp only [hname]
          exact ⟨by simp, by simp⟩

theorem processRow_KeyInv (k : String) (n : Nat) (acc : ImportAcc) (row : Row)
    (hinv : KeyInv k acc) : KeyInv k (processRow n acc row) := by
  rcases processRow_shape n acc row with ⟨_, ha, hm⟩ | ⟨cName, _, ha, hm⟩
  · exact KeyInv_of_eq ha hm hinv
  · exact KeyInv_of_eq ha hm (resolveCategory_KeyInv k n acc cName hinv)

theorem processRow_mono (k v : String) (n : Nat) (acc : ImportAcc) (row : Row)
    (h : mapFind k acc.nameToId = some v) :
    mapFind k (processRow n acc row).nameToId = some v := by
  rcases processRow_shape n acc row with ⟨_, _, hm⟩ | ⟨cName, _, _, hm⟩
  · rw [hm]
    exact h
  · rw [hm]
    exact resolveCategory_mono k v n acc cName h

/-- A row whose category cell resolves to key `k` leaves `k` bound in the
map. -/
theorem processRow_binds (k : String) (n : Nat) (acc : ImportAcc) (row : Row)
    (hkey : rowKeyOf row = some k) :
    ∃ v, mapFind k (processRow n acc row).nameToId = some v := by
  obtain ⟨cName, hj, hk⟩ :
      ∃ c, jsOr row.categoryName row.categoryNameAlt = some c ∧ jsToLower c = k := by
    unfold rowKeyOf at hkey
    cases hj : jsOr row.categoryName row.categoryNameAlt with
    | none => rw [hj] at hkey; cases hkey
    | some c =>
      rw [hj] at hkey
      exact ⟨c, rfl, by simpa using hkey⟩
  rcases processRow_shape n acc row with ⟨hjn, _, _⟩ | ⟨c2, hj2, _, hm⟩
  · rw [hj] at hjn
    cases hjn
  · rw [hj] at hj2
    have hc2 : c2 = cName := by
      injection hj2 with hv
      exact hv.symm
    subst hc2
    rw [hm]
    exact ⟨_, resolveCategory_binds k n acc c2 hk⟩

/-- The item a row emits carries the category id the final map assigns to the
row's key. -/
theorem processRow_emit (k : String) (n : Nat) (acc : ImportAcc) (row : Row)
    (item : MenuItemData) (hkey : rowKeyOf row = some k)
    (hemit : (processRowAux n acc row).2 = some item) :
    mapFind k (processRow n acc row).nameToId = some item.categoryId := by
  obtain ⟨cName, hj, hk⟩ :
      ∃ c, jsOr row.categoryName row.categoryNameAlt = some c ∧ jsToLower c = k := by
    unfold rowKeyOf at hkey
    cases hj : jsOr row.categoryName row.categoryNameAlt with
    | none => rw [hj] at hkey; cases hkey
    | some c =>
      rw [hj] at hkey
      exact ⟨c, rfl, by simpa using hkey⟩
  unfold processRow processRowAux
  unfold processRowAux at hemit
  rw [hj] at hemit ⊢
  cases hp : parseFloat (jsStringU row.price) with
  | none =>
    rw [hp] at hemit
    simp at hemit
  | some p =>
    rw [hp] at hemit
    by_cases hple : p ≤ 0
    · simp only [if_pos hple] at hemit
      simp at hemit
    · simp only [if_neg hple] at hemit ⊢
      by_cases hname : ((buildItem row (resolveCategory n acc cName).1 p).name == "") = true
      · simp only [hname, if_pos] at hemit
        simp at hemit
      · simp only [hname] at hemit ⊢
        simp only [Bool.false_eq_true, if_false] at hemit ⊢
        have hitem : buildItem row (resolveCategory n acc cName).1 p = item := by
          injection hemit
        have hcat : item.categoryId = (resolveCategory n acc cName).1 := by
          rw [← hitem]
          rfl
        show mapFind k (resolveCategory n acc cName).2.nameToId = _
        rw [hcat]
        exact resolveCategory_binds k n acc cName hk

theorem foldl_processRow_mono (n : Nat) (k v : String) :
    ∀ (rows : List Row) (acc : ImportAcc),
      mapFind k acc.nameToId = some v →
      mapFind k ((rows.foldl (processRow n) acc).nameToId) = some v := by
  intro rows
  induction rows with
  | nil => intro acc h; exact h
  | cons r rs ih =>
    intro acc h
    rw [List.foldl_cons]
    exact ih (processRow n acc r) (processRow_mono k v n acc r h)

theorem foldl_processRow_KeyInv (n : Nat) (k : String) :
    ∀ (rows : List Row) (acc : ImportAcc),
      KeyInv k acc → KeyInv k (rows.foldl (processRow n) acc) := by
  intro rows
  induction rows with
  | nil => intro acc h; exact h
  | cons r rs ih =>
    intro acc h
    rw [List.foldl_cons]
    exact ih (processRow n acc r) (processRow_KeyInv k n acc r h)

theorem foldl_processRow_presence (n : Nat) (k : String) :
    ∀ (rows : List Row) (acc : ImportAcc),
      (∃ r ∈ rows, rowKeyOf r = some k) →
      ∃ v, mapFind k ((rows.foldl (processRow n) acc).nameToId) = some v := by
  intro rows
  induction rows with
  | nil =>
    intro acc h
    rcases h with ⟨r, hr, _⟩
    cases hr
  | cons r rs ih =>
    intro acc h
    rcases h with ⟨r2, hr2, hkey⟩
    rw [List.foldl_cons]
    rcases List.mem_cons.mp hr2 with h1 | h1
    · subst h1
      rcases processRow_binds k n acc r2 hkey with ⟨v, hv⟩
      exact ⟨v, foldl_processRow_mono n k v rs (processRow n acc r2) hv⟩
    · exact ih (processRow n acc r) ⟨r2, h1, hkey⟩

theorem runEmitted_categoryId (n : Nat) (k : String) :
    ∀ (rows : List Row) (acc : ImportAcc),
      ∀ p ∈ rows.zip (runEmitted n acc rows),
        rowKeyOf p.1 = some k → ∀ item, p.2 = some item →
        mapFind k ((rows.foldl (processRow n) acc).nameToId) = some item.categoryId := by
  intro rows
  induction rows with
  | nil =>
    intro acc p hp
    simp [runEmitted] at hp
  | cons r rs ih =>
    intro acc p hp hkey item hemit
    rw [runEmitted, List.zip_cons_cons] at hp
    rw [List.foldl_cons]
    rcases List.mem_cons.mp hp with h1 | h1
    · have hp1 : p.1 = r := by rw [h1]
      have hp2 : p.2 = (processRowAux n acc r).2 := by rw [h1]
      rw [hp1] at hkey
      rw [hp2] at hemit
      have hb := processRow_emit k n acc r item hkey hemit
      exact foldl_processRow_mono n k item.categoryId rs (processRow n acc r) hb
    · exact ih (processRow n acc r) p h1 hkey item hemit

theorem initAcc_KeyInv (k : String) (categories : List MenuCategory)
    (s : ApiState) (hmap : mapFind k (seedMap categories) = none)
    (hdb : keyCount k s.categoryDB = 0) (hfresh : CatFresh s) :
    KeyInv k (initAcc categories s) := by
  refine ⟨hfresh, fun _ => hdb, fun cid hcid => ?_⟩
  have : mapFind k (seedMap categories) = some cid := hcid
  rw [hmap] at this
  cases this

/-- C1: within one import run, a category name that is new (its lowercased
key is neither among the fetched categories seeding the map nor in the store)
is created exactly once no matter how many rows reference it — in any
spelling of its case — and every item those rows produce carries that one
created category's id. -/
theorem import_creates_one_category_per_name
    (categories : List MenuCategory) (s : ApiState) (rows : List Row) (k : String)
    (hmap : mapFind k (seedMap categories) = none)
    (hdb : keyCount k s.categoryDB = 0)
    (hfresh : CatFresh s)
    (href : ∃ r ∈ rows, rowKeyOf r = some k) :
    keyCount k (importRows categories s rows).api.categoryDB = 1
    ∧ ∃ cid, mapFind k (importRows categories s rows).nameToId = some cid
        ∧ (∀ c ∈ (importRows categories s rows).api.categoryDB,
             jsToLower c.name = k → c.id = cid)
        ∧ ∀ p ∈ rows.zip (runEmitted categories.length (initAcc categories s) rows),
            rowKeyOf p.1 = some k → ∀ item, p.2 = some item →
            item.categoryId = cid := by
  have hinv0 := initAcc_KeyInv k categories s hmap hdb hfresh
  have hinvF := foldl_processRow_KeyInv categories.length k rows
    (initAcc categories s) hinv0
  obtain ⟨cid, hcid⟩ := foldl_processRow_presence categories.length k rows
    (initAcc categories s) href
  have hsome := hinvF.2.2 cid hcid
  refine ⟨hsome.1, cid, hcid, hsome.2, ?_⟩
  intro p hp hkey item hemit
  have h := runEmitted_categoryId categories.length k rows (initAcc categories s)
    p hp hkey item hemit
  have := h.symm.trans hcid
  injection this

/-- Closed witness for C1: importing the two "Drinks"/"DRINKS" rows into an
empty system yields exactly one category with that lowercased name. -/
theorem import_creates_one_category_witness :
    mapFind "drinks" (seedMap []) = none
    ∧ keyCount "drinks" emptyApi.categoryDB = 0
    ∧ CatFresh emptyApi
    ∧ (∃ r ∈ [rowDrinksA, rowDrinksB], rowKeyOf r = some "drinks")
    ∧ keyCount "drinks"
        (importRows [] emptyApi [rowDrinksA, rowDrinksB]).api.categoryDB = 1 := by
  have hfresh : CatFresh emptyApi := by
    intro c hc m _
    simp [emptyApi] at hc
  refine ⟨by decide, by decide, hfresh,
    ⟨rowDrinksA, by simp, by decide⟩, ?_⟩
  exact (import_creates_one_category_per_name [] emptyApi [rowDrinksA, rowDrinksB]
    "drinks" (by decide) (by decide) hfresh ⟨rowDrinksA, by simp, by decide⟩).1

end MenuSpec
